import Mathlib

/-!
Verification development for the az_vuln_cli vulnerability extraction,
aggregation and comparison engine.

Python strings are modelled as `List Char`; JSON documents as structures;
fallible steps as `Option`; machine floats as exact rationals parsed from
their decimal rendering (CVSS scores are short decimal numerals, on which
rational order and IEEE order agree).  Each definition is a direct
translation of the function of the same name in the repository sources;
definitions marked `spec:` in their doc comment instead follow the
natural-language specification and exist to be compared with the code.
-/

namespace AzVuln

/-- Python `str.lower()` restricted to ASCII, as used on status texts and URLs. -/
def pyLower (s : List Char) : List Char := s.map Char.toLower

/-- One step of Python `str.title()`: the boolean says whether the previous
character was cased (alphabetic). -/
def pyTitleGo : Bool → List Char → List Char
  | _, [] => []
  | prev, c :: rest =>
    if c.isAlpha then (if prev then c.toLower else c.toUpper) :: pyTitleGo true rest
    else c :: pyTitleGo false rest

/-- Python `str.title()` (ASCII): first letter of each run of letters upper-cased,
the rest lower-cased. -/
def pyTitle (s : List Char) : List Char := pyTitleGo false s

/-- Python `pat in s` for strings: contiguous-substring test. -/
def containsSub (pat : List Char) : List Char → Bool
  | [] => pat.isEmpty
  | c :: rest => pat.isPrefixOf (c :: rest) || containsSub pat rest

/-- Python string `<=`: lexicographic comparison by code point. -/
def strLe : List Char → List Char → Bool
  | [], _ => true
  | _ :: _, [] => false
  | a :: as, b :: bs =>
    if a.toNat < b.toNat then true
    else if b.toNat < a.toNat then false
    else strLe as bs

/-- Python `str.isdigit()` (ASCII digits): non-empty and all digits. -/
def pyIsdigit (s : List Char) : Bool := !s.isEmpty && s.all Char.isDigit

/-- Python `s.replace('.', '')`: drop every dot. -/
def removeDots (s : List Char) : List Char := s.filter (fun c => c != '.')

/-- Value of a (possibly empty) ASCII digit string, most significant first. -/
def natFromDigits (l : List Char) : Nat := l.foldl (fun acc c => acc * 10 + (c.toNat - 48)) 0

/-- Python `float(s)` for strings made of digits and dots (the only strings the
code ever feeds to `float`): `none` when more than one dot makes it raise.
The value is the exact non-negative decimal `(mantissa, fracDigits)`, meaning
mantissa / 10 ^ fracDigits; two values are numerically equal/ordered exactly
when their cross products are. -/
def floatOfScore? (s : List Char) : Option (Nat × Nat) :=
  match s.splitOn '.' with
  | [ip] => some (natFromDigits ip, 0)
  | [ip, fp] => some (natFromDigits (ip ++ fp), fp.length)
  | _ => none

/-- Numeric `a ≤ b` on decimal values: a₁/10^a₂ ≤ b₁/10^b₂ by cross
multiplication. -/
def scoreValLe (a b : Nat × Nat) : Bool := a.1 * 10 ^ b.2 ≤ b.1 * 10 ^ a.2

/-- `sorted(set(...))` of Python: the distinct elements in code-point order,
followed by `sep.join(...)`. -/
def sortedJoin (sep : List Char) (l : List (List Char)) : List Char :=
  List.intercalate sep (l.dedup.insertionSort (fun a b => strLe a b = true))

/-- First-match lookup in an association list, i.e. Python `dict[k]` /
`dict.get(k)` once the list is key-nodup. -/
def dictGet? {K V : Type} [DecidableEq K] : List (K × V) → K → Option V
  | [], _ => none
  | (k0, v0) :: rest, k => if k = k0 then some v0 else dictGet? rest k

/-- Python `d[k] = v`: overwrite in place if the key exists, else append. -/
def pyDictSet {K V : Type} [DecidableEq K] : List (K × V) → K → V → List (K × V)
  | [], k, v => [(k, v)]
  | (k0, v0) :: rest, k, v =>
    if k = k0 then (k0, v) :: rest else (k0, v0) :: pyDictSet rest k v

/-! ## generate_remediation_csv.py: data model -/

/-- One entry of `vulnerabilities[].ratings[]`.  `severity` is `[]` when the
field is absent or empty (falsy in Python); `score` is the decimal rendering
`str(rating["score"])` of the score, `[]` when the field is absent or the
number is `0` (falsy in Python). -/
structure Rating where
  severity : List Char
  score : List Char
deriving DecidableEq

/-- One entry of `affects[].versions[]`. -/
structure VersionEntry where
  status : List Char
  version : List Char
deriving DecidableEq

/-- One entry of `vulnerabilities[].affects[]`. -/
structure Affect where
  ref : List Char
  versions : List VersionEntry
deriving DecidableEq

/-- One entry of `vulnerabilities[].advisories[]`. -/
structure Advisory where
  url : List Char
deriving DecidableEq

/-- One entry of `vulnerabilities[]`.  `id` is `none` when the finding has no
`id` field (Python `vuln.get("id", "Unknown")` then yields `"Unknown"`). -/
structure Vuln where
  id : Option (List Char)
  ratings : List Rating
  affects : List Affect
  advisories : List Advisory
  description : List Char
deriving DecidableEq

/-- One entry of `components[]`. -/
structure Component where
  bomRef : List Char
  name : List Char
  version : List Char
  ctype : List Char
  purl : List Char
deriving DecidableEq

/-- Result of `get_package_info` / the purl fallback. -/
structure PackageInfo where
  name : List Char
  version : List Char
  ctype : List Char
  purl : List Char
deriving DecidableEq

/-- One row of the remediation tracking CSV (the bookkeeping columns
`Notes`/`Assigned_To`/`Target_Date`/`Completed_Date`, always written empty,
are omitted). -/
structure RemRow where
  image : List Char
  vulnId : List Char
  packageName : List Char
  currentVersion : List Char
  packageType : List Char
  severity : List Char
  cvss : List Char
  fixedVersion : List Char
  description : List Char
  status : List Char
deriving DecidableEq

/-! ## generate_remediation_csv.py: functions -/

/-- `get_package_info`: find package information by bom-ref. -/
def get_package_info (components : List Component) (bomRef : List Char) : PackageInfo :=
  match components.find? (fun c => c.bomRef = bomRef) with
  | some c => ⟨c.name, c.version, c.ctype, c.purl⟩
  | none => ⟨"Unknown".toList, "Unknown".toList, "Unknown".toList, []⟩

/-- The purl-fallback inside `generate_remediation_csv`: when the component was
not found and the ref looks like a purl, parse `pkg:type/namespace/name@version`
from the ref itself. -/
def purlFallback (info : PackageInfo) (packageRef : List Char) : PackageInfo :=
  if info.name = "Unknown".toList ∧ packageRef ≠ [] ∧ containsSub "pkg:".toList packageRef then
    let parts := packageRef.splitOn '/'
    if 2 ≤ parts.length then
      let nameVersion := (parts.getLastD []).splitOn '@'
      let info1 := { info with name := nameVersion.headD [] }
      if 1 < nameVersion.length then
        { info1 with version := ((nameVersion.getD 1 []).splitOn '?').headD [] }
      else info1
    else info
  else info

/-- The matcher of ONE position for the code's advisory-URL regular expression
`(\d+\.[\d\.]+)` : a maximal digit run, a dot, then a maximal non-empty run of
digits-or-dots (backtracking cannot produce any other match here). -/
def matchVersionAt (cs : List Char) : Option (List Char) :=
  let d := cs.takeWhile Char.isDigit
  if d.isEmpty then none
  else
    match cs.drop d.length with
    | '.' :: rest =>
      let t := rest.takeWhile (fun c => c.isDigit || c = '.')
      if t.isEmpty then none else some (d ++ '.' :: t)
    | _ => none

/-- Python `re.search(r'(\d+\.[\d\.]+)', url)`: the leftmost match, if any. -/
def reSearchVersion : List Char → Option (List Char)
  | [] => none
  | c :: rest =>
    match matchVersionAt (c :: rest) with
    | some m => some m
    | none => reSearchVersion rest

/-- `extract_fixed_version`: collect version literals from affect/version
entries whose status contains "fixed" or "patched", and the first regex match
from each advisory URL containing "fixed"; sorted, deduplicated, comma-joined,
defaulting to "Check Manually". -/
def extract_fixed_version (v : Vuln) : List Char :=
  let fromAffects :=
    v.affects.foldl (fun acc a =>
      a.versions.foldl (fun acc2 vi =>
        if containsSub "fixed".toList (pyLower vi.status) then acc2 ++ [vi.version]
        else if containsSub "patched".toList (pyLower vi.status) then acc2 ++ [vi.version]
        else acc2) acc) []
  let withAdvisories :=
    v.advisories.foldl (fun acc adv =>
      if containsSub "fixed".toList (pyLower adv.url) then
        match reSearchVersion adv.url with
        | some m => acc ++ [m]
        | none => acc
      else acc) fromAffects
  if withAdvisories.isEmpty then "Check Manually".toList
  else sortedJoin ", ".toList withAdvisories

/-- The severity/score loop of `generate_remediation_csv`: running state is
(severity, cvss_score), initialised to "Unknown"; a rating with a truthy
severity overwrites the severity; the first rating with a truthy score sets
the score and breaks the loop. -/
def extractSevScoreGo : List Char → List Char → List Rating → List Char × List Char
  | sev, cvss, [] => (sev, cvss)
  | sev, cvss, r :: rs =>
    let sev2 := if r.severity ≠ [] then pyTitle r.severity else sev
    if r.score ≠ [] then (sev2, r.score) else extractSevScoreGo sev2 cvss rs

/-- Severity and CVSS score extracted from a finding's ratings list. -/
def extractSevScore (ratings : List Rating) : List Char × List Char :=
  extractSevScoreGo "Unknown".toList "Unknown".toList ratings

/-- The records emitted for one finding: one per affected component. -/
def rowsForVuln (imageName : List Char) (components : List Component) (v : Vuln)
    (vulnId : List Char) : List RemRow :=
  let sevScore := extractSevScore v.ratings
  v.affects.map (fun a =>
    let info := purlFallback (get_package_info components a.ref) a.ref
    { image := imageName
      vulnId := vulnId
      packageName := info.name
      currentVersion := info.version
      packageType := info.ctype
      severity := sevScore.1
      cvss := sevScore.2
      fixedVersion := extract_fixed_version v
      description := v.description
      status := "Pending".toList })

/-- The main loop of `generate_remediation_csv` before sorting: processed ids
accumulate in `processed`; a finding whose id (defaulted to "Unknown") was
already processed is skipped. -/
def genRowsGo (imageName : List Char) (components : List Component) :
    List (List Char) → List Vuln → List RemRow
  | _, [] => []
  | processed, v :: rest =>
    let vid := v.id.getD "Unknown".toList
    if vid ∈ processed then genRowsGo imageName components processed rest
    else rowsForVuln imageName components v vid ++
      genRowsGo imageName components (vid :: processed) rest

/-- The unsorted `csv_data` of `generate_remediation_csv`. -/
def genRows (imageName : List Char) (components : List Component) (vulns : List Vuln) :
    List RemRow :=
  genRowsGo imageName components [] vulns

/-- The `processed_vulns` set of the main loop after consuming a prefix of
the document: exactly the state update of `genRowsGo` (a key is added the
first time it is seen, whether emitted or not — skipped findings leave the
set unchanged since their key is already present). -/
def processedAfter (procd : List (List Char)) : List Vuln → List (List Char)
  | [] => procd
  | v :: rest =>
    let vid := v.id.getD "Unknown".toList
    processedAfter (if vid ∈ procd then procd else vid :: procd) rest

/-! ## generate_remediation_csv.py: final sort (claim C7) -/

/-- The `severity_order` dict of `generate_remediation_csv`. -/
def severity_order : List (List Char × Nat) :=
  [("Critical".toList, 0), ("High".toList, 1), ("Medium".toList, 2),
   ("Low".toList, 3), ("Unknown".toList, 4)]

/-- `severity_order.get(sev, 4)`. -/
def severityRank (s : List Char) : Nat := (dictGet? severity_order s).getD 4

/-- The guard `x["CVSS_Score"].replace('.', '').isdigit()`. -/
def scoreGuard (s : List Char) : Bool := pyIsdigit (removeDots s)

/-- The sort key of one row — severity rank plus the score value whose
NEGATION Python sorts ascending: `none` models `float` raising on a guarded
score string with more than one dot. -/
def codeSortKey (r : RemRow) : Option (Nat × (Nat × Nat)) :=
  if scoreGuard r.cvss then (floatOfScore? r.cvss).map (fun q => (severityRank r.severity, q))
  else some (severityRank r.severity, (0, 0))

/-- Ascending lexicographic comparison of the Python key tuples
`(rank, -score)`: rank ascending, then score DESCENDING (the stored decimal
value is the un-negated score). -/
def keyLe (a b : Nat × (Nat × Nat)) : Bool :=
  a.1 < b.1 || (a.1 = b.1 && scoreValLe b.2 a.2)

/-- Row comparator of the final `csv_data.sort`. -/
def rowLe (a b : RemRow) : Bool :=
  keyLe ((codeSortKey a).getD (0, (0, 0))) ((codeSortKey b).getD (0, (0, 0)))

/-- The final sort of `generate_remediation_csv` (Python `list.sort` is a
stable sort by key, modelled by insertion sort, which is stable); `none` when
a key computation raises. -/
def sortRemediation (rows : List RemRow) : Option (List RemRow) :=
  if rows.all (fun r => (codeSortKey r).isSome) then
    some (rows.insertionSort (fun a b => rowLe a b = true))
  else none

/-! ## generate_detailed_comparison.py: data model -/

/-- Decimal rendering of a natural number, for the f-string Impact texts. -/
def natToStr (n : Nat) : List Char := (toString n).toList

/-- One row of a `vulnerabilities_summary.csv` file as the comparator reads it.
`count` models `int(row.get('Vulnerability_Count', '0'))`, the parsed
non-negative count. -/
structure SummaryRow where
  packageName : List Char
  currentVersion : List Char
  count : Nat
  priority : List Char
  severityBreakdown : List Char
deriving DecidableEq

/-- One row of a `vulnerabilities_tracking.csv` file.  `rest` carries the
remaining columns (type, severity, score, description, workflow fields) as
name-value pairs. -/
structure TrackingRow where
  image : List Char
  vulnId : List Char
  packageName : List Char
  currentVersion : List Char
  fixedVersion : List Char
  rest : List (List Char × List Char)
deriving DecidableEq

/-- `create_package_key`: `f"{Package_Name}|{Current_Version}"`. -/
def create_package_key (r : SummaryRow) : List Char :=
  r.packageName ++ '|' :: r.currentVersion

/-- The same key computed inline for tracking rows. -/
def trackingKey (r : TrackingRow) : List Char :=
  r.packageName ++ '|' :: r.currentVersion

/-- The counts dictionary of `parse_severity_breakdown`. -/
structure SeverityCounts where
  critical : Nat
  high : Nat
  medium : Nat
  low : Nat
  info : Nat
  unknown : Nat
deriving DecidableEq

def zeroCounts : SeverityCounts := ⟨0, 0, 0, 0, 0, 0⟩

/-- `counts[severity] = int(count)` for the six known keys, ignore others. -/
def setCount (c : SeverityCounts) (name : List Char) (n : Nat) : SeverityCounts :=
  if name = "Critical".toList then { c with critical := n }
  else if name = "High".toList then { c with high := n }
  else if name = "Medium".toList then { c with medium := n }
  else if name = "Low".toList then { c with low := n }
  else if name = "Info".toList then { c with info := n }
  else if name = "Unknown".toList then { c with unknown := n }
  else c

/-- `\w` of the breakdown regular expression (ASCII). -/
def isWordChar (c : Char) : Bool := c.isAlphanum || c = '_'

/-- The matcher of one position for `(\w+):\s*(\d+)`: maximal word run, a
colon, maximal whitespace, then a non-empty maximal digit run; returns the two
groups and the remainder after the match. -/
def matchSevCountAt (cs : List Char) : Option ((List Char × List Char) × List Char) :=
  let w := cs.takeWhile isWordChar
  if w.isEmpty then none
  else
    match cs.drop w.length with
    | ':' :: rest2 =>
      let sp := rest2.takeWhile Char.isWhitespace
      let d := (rest2.drop sp.length).takeWhile Char.isDigit
      if d.isEmpty then none else some ((w, d), rest2.drop (sp.length + d.length))
    | _ => none

/-- `re.findall(r'(\w+):\s*(\d+)', s)`: leftmost non-overlapping matches.  The
fuel argument (initialised to the string length, an upper bound on the steps
of the scan, each of which consumes at least one character) makes the
recursion structural. -/
def findAllSevCountsGo : Nat → List Char → List (List Char × List Char)
  | 0, _ => []
  | _ + 1, [] => []
  | fuel + 1, c :: rest =>
    match matchSevCountAt (c :: rest) with
    | some (g, remainder) => g :: findAllSevCountsGo fuel remainder
    | none => findAllSevCountsGo fuel rest

def findAllSevCounts (s : List Char) : List (List Char × List Char) :=
  findAllSevCountsGo s.length s

/-- `parse_severity_breakdown`. -/
def parse_severity_breakdown (s : List Char) : SeverityCounts :=
  if s = [] ∨ s = "N/A".toList ∨ s = "Unknown".toList then zeroCounts
  else (findAllSevCounts s).foldl
    (fun c g => setCount c g.1 (natFromDigits g.2)) zeroCounts

/-- One row of the detailed comparison CSV. -/
structure DetEntry where
  status : List Char
  package : List Char
  currentVersion : List Char
  affectedImages : List Char
  fixedVulnerabilities : List Char
  countProd : Nat
  countLatest : Nat
  priorityProd : List Char
  priorityLatest : List Char
  highProd : Nat
  highLatest : Nat
  critProd : Nat
  critLatest : Nat
  impact : List Char
deriving DecidableEq

/-- The (package name | current version) key of an emitted comparison entry. -/
def entryKey (e : DetEntry) : List Char := e.package ++ '|' :: e.currentVersion

/-! ## generate_detailed_comparison.py: functions -/

/-- Register a key in a dict-of-sets with an empty set if absent
(`package_to_vulns[package_key] = set()`). -/
def setMapInit : List (List Char × List (List Char)) → List Char →
    List (List Char × List (List Char))
  | [], k => [(k, [])]
  | (k0, s) :: rest, k =>
    if k0 = k then (k0, s) :: rest else (k0, s) :: setMapInit rest k

/-- `m[k].add(v)` on a dict-of-sets (sets modelled as duplicate-free lists). -/
def setMapAdd : List (List Char × List (List Char)) → List Char → List Char →
    List (List Char × List (List Char))
  | [], k, v => [(k, [v])]
  | (k0, s) :: rest, k, v =>
    if k0 = k then (k0, if v ∈ s then s else s ++ [v]) :: rest
    else (k0, s) :: setMapAdd rest k v

/-- The `package_to_images` / `package_to_vulns` maps built from the
production tracking rows. -/
def buildTrackingMaps (tracking : List TrackingRow) :
    List (List Char × List (List Char)) × List (List Char × List (List Char)) :=
  tracking.foldl
    (fun maps row =>
      let key := trackingKey row
      let images := setMapAdd maps.1 key row.image
      let vulns0 := setMapInit maps.2 key
      let vulns :=
        if row.vulnId ≠ "Unknown".toList then setMapAdd vulns0 key row.vulnId else vulns0
      (images, vulns))
    ([], [])

/-- `'; '.join(sorted(s)) if s else 'Unknown'` with `s = map.get(key, set())`. -/
def setStr (m : List (List Char × List (List Char))) (k : List Char) : List Char :=
  match dictGet? m k with
  | some s => if s.isEmpty then "Unknown".toList else sortedJoin "; ".toList s
  | none => "Unknown".toList

/-- The `prod_packages` / `latest_packages` dicts: row after row,
`packages[create_package_key(row)] = row`. -/
def buildPackages (rows : List SummaryRow) : List (List Char × SummaryRow) :=
  rows.foldl (fun d r => pyDictSet d (create_package_key r) r) []

/-- A FIXED entry (key in production only). -/
def mkFixedEntry (imagesMap vulnsMap : List (List Char × List (List Char)))
    (kv : List Char × SummaryRow) : DetEntry :=
  let pr := kv.2
  let sev := parse_severity_breakdown pr.severityBreakdown
  { status := "FIXED".toList
    package := pr.packageName
    currentVersion := pr.currentVersion
    affectedImages := setStr imagesMap kv.1
    fixedVulnerabilities := setStr vulnsMap kv.1
    countProd := pr.count
    countLatest := 0
    priorityProd := pr.priority
    priorityLatest := "N/A".toList
    highProd := sev.high
    highLatest := 0
    critProd := sev.critical
    critLatest := 0
    impact := "Eliminates ".toList ++ natToStr pr.count ++ " vulnerabilities".toList }

/-- A NEW entry (key in latest only). -/
def mkNewEntry (kv : List Char × SummaryRow) : DetEntry :=
  let lr := kv.2
  let sev := parse_severity_breakdown lr.severityBreakdown
  { status := "NEW".toList
    package := lr.packageName
    currentVersion := lr.currentVersion
    affectedImages := "N/A (Latest only)".toList
    fixedVulnerabilities := "N/A (New in latest)".toList
    countProd := 0
    countLatest := lr.count
    priorityProd := "N/A".toList
    priorityLatest := lr.priority
    highProd := 0
    highLatest := sev.high
    critProd := 0
    critLatest := sev.critical
    impact := "Introduces ".toList ++ natToStr lr.count ++ " new vulnerabilities".toList }

/-- An entry for a key present in both populations; the status is IMPROVED,
WORSENED or UNCHANGED depending on the counts. -/
def mkBothEntry (imagesMap vulnsMap : List (List Char × List (List Char)))
    (kv : List Char × SummaryRow) (lr : SummaryRow) : DetEntry :=
  let pr := kv.2
  let status :=
    if pr.count ≠ lr.count then
      (if lr.count < pr.count then "IMPROVED".toList else "WORSENED".toList)
    else "UNCHANGED".toList
  let impact :=
    if pr.count ≠ lr.count then
      "Change: ".toList ++ natToStr pr.count ++ " → ".toList ++ natToStr lr.count ++
        " vulnerabilities".toList
    else "No change: ".toList ++ natToStr pr.count ++ " vulnerabilities".toList
  let prodSev := parse_severity_breakdown pr.severityBreakdown
  let latestSev := parse_severity_breakdown lr.severityBreakdown
  { status := status
    package := pr.packageName
    currentVersion := pr.currentVersion
    affectedImages := setStr imagesMap kv.1
    fixedVulnerabilities :=
      if status = "IMPROVED".toList ∨ status = "WORSENED".toList then setStr vulnsMap kv.1
      else "Still present".toList
    countProd := pr.count
    countLatest := lr.count
    priorityProd := pr.priority
    priorityLatest := lr.priority
    highProd := prodSev.high
    highLatest := latestSev.high
    critProd := prodSev.critical
    critLatest := latestSev.critical
    impact := impact }

/-- `status_priority` of the final sort. -/
def status_priority : List (List Char × Nat) :=
  [("FIXED".toList, 0), ("IMPROVED".toList, 1), ("NEW".toList, 2),
   ("WORSENED".toList, 3), ("UNCHANGED".toList, 4)]

/-- Comparator of the final sort: (status priority, -count_prod, package)
ascending. -/
def detLe (a b : DetEntry) : Bool :=
  let pa := (dictGet? status_priority a.status).getD 5
  let pb := (dictGet? status_priority b.status).getD 5
  pa < pb || (pa = pb && (b.countProd < a.countProd ||
    (a.countProd = b.countProd && strLe a.package b.package)))

/-- The `all_results` list before the final sort: the FIXED entries (keys in
production only, in production dict order), then the NEW entries, then the
entries for keys in both. -/
def comparisonUnsorted (prodData latestData : List SummaryRow)
    (tracking : List TrackingRow) : List DetEntry :=
  let maps := buildTrackingMaps tracking
  let prodPackages := buildPackages prodData
  let latestPackages := buildPackages latestData
  let fixedPackages := prodPackages.filterMap (fun kv =>
    if (dictGet? latestPackages kv.1).isSome then none
    else some (mkFixedEntry maps.1 maps.2 kv))
  let newVulnerabilities := latestPackages.filterMap (fun kv =>
    if (dictGet? prodPackages kv.1).isSome then none else some (mkNewEntry kv))
  let unchangedPackages := prodPackages.filterMap (fun kv =>
    (dictGet? latestPackages kv.1).map (mkBothEntry maps.1 maps.2 kv))
  (fixedPackages ++ newVulnerabilities) ++ unchangedPackages

/-- The emitted (sorted) comparison rows, for non-empty inputs. -/
def comparisonEntries (prodData latestData : List SummaryRow)
    (tracking : List TrackingRow) : List DetEntry :=
  (comparisonUnsorted prodData latestData tracking).insertionSort
    (fun a b => detLe a b = true)

/-- Outcome of `generate_detailed_comparison`: a skip message, or the report. -/
inductive DetOutcome where
  | skip (msg : List Char)
  | report (entries : List DetEntry)
deriving DecidableEq

/-- `generate_detailed_comparison`, over the contents of the three input CSV
files (an absent file loads as the empty list in `load_csv_data`). -/
def generate_detailed_comparison (prodData latestData : List SummaryRow)
    (tracking : List TrackingRow) : DetOutcome :=
  if prodData.isEmpty then
    .skip "No production data found in reports/production/vulnerabilities_summary.csv".toList
  else if latestData.isEmpty then
    .skip "No latest data found in reports/latest/vulnerabilities_summary.csv".toList
  else .report (comparisonEntries prodData latestData tracking)

/-! ## compare_vulnerabilities.py (summary-level comparator) -/

/-- Outcome of `compare_vulnerabilities`: a skip message, or the printed
analysis (abbreviated here to the two totals that drive its recommendation). -/
inductive CVOutcome where
  | skip (msg : List Char)
  | analysis (totalProd totalLatest : Nat)
deriving DecidableEq

/-- `compare_vulnerabilities`: existence checks, the empty-data check, then
the analysis. -/
def compare_vulnerabilities (prodExists latestExists : Bool)
    (prodRows latestRows : List SummaryRow) : CVOutcome :=
  if !prodExists then
    .skip "❌ Production data not found: reports/production/vulnerabilities_summary.csv".toList
  else if !latestExists then
    .skip "❌ Latest data not found: reports/latest/vulnerabilities_summary.csv".toList
  else if prodRows.isEmpty || latestRows.isEmpty then
    .skip "❌ No vulnerability data to compare".toList
  else .analysis prodRows.length latestRows.length

/-! ## generate_summary.py (claim C8) -/

/-- The grouping key `f"{Package_Name}@{Current_Version}"`. -/
def summaryKey (r : RemRow) : List Char := r.packageName ++ '@' :: r.currentVersion

/-- `defaultdict(list)` accumulation: append to the key's group, creating the
group at the end on first sight (Python dicts preserve insertion order). -/
def listMapAdd {V : Type} : List (List Char × List V) → List Char → V →
    List (List Char × List V)
  | [], k, v => [(k, [v])]
  | (k0, s) :: rest, k, v =>
    if k0 = k then (k0, s ++ [v]) :: rest else (k0, s) :: listMapAdd rest k v

/-- The `package_groups` of `generate_summary`. -/
def packageGroups (rows : List RemRow) : List (List Char × List RemRow) :=
  rows.foldl (fun m r => listMapAdd m (summaryKey r) r) []

/-- The `severity_priority` dict of `generate_summary`. -/
def severity_priority : List (List Char × Nat) :=
  [("Critical".toList, 0), ("High".toList, 1), ("Medium".toList, 2),
   ("Low".toList, 3), ("Unknown".toList, 4)]

/-- `severity_priority.get(sev, 4)`. -/
def sevPriorityRank (s : List Char) : Nat := (dictGet? severity_priority s).getD 4

/-- Python `min(x :: xs, key=f)`: the first element attaining the minimal key. -/
def pyMinBy {α : Type} (f : α → Nat) (x : α) (xs : List α) : α :=
  xs.foldl (fun best y => if f y < f best then y else best) x

/-- `min(severities, key=severity_priority.get(x, 4))` (groups are never
empty, so the `[]` case is unreachable). -/
def highestSeverity : List (List Char) → List Char
  | [] => "Unknown".toList
  | s :: ss => pyMinBy sevPriorityRank s ss

/-- The Priority expression of `generate_summary`:
`'High' if highest in ['Critical', 'High'] else 'Medium' if highest == 'Medium' else 'Low'`. -/
def summaryPriority (hs : List Char) : List Char :=
  if hs = "Critical".toList ∨ hs = "High".toList then "High".toList
  else if hs = "Medium".toList then "Medium".toList
  else "Low".toList

/-- Priority of one package group, as `generate_summary` computes it. -/
def groupPriority (vulns : List RemRow) : List Char :=
  summaryPriority (highestSeverity (vulns.map RemRow.severity))

/-! ## update_fixed_versions.py -/

/-- `load_sbom_vulnerabilities`: the set (here a duplicate-free list) of
truthy finding ids of a candidate or baseline SBOM. -/
def load_sbom_vulnerabilities (vulns : List Vuln) : List (List Char) :=
  vulns.foldl
    (fun acc v =>
      match v.id with
      | some i => if i ≠ [] ∧ i ∉ acc then acc ++ [i] else acc
      | none => acc)
    []

/-- `compare_image_vulnerabilities`: (fixed, new) = (current − latest,
latest − current) as sets. -/
def compare_image_vulnerabilities (currentVulns latestVulns : List (List Char)) :
    List (List Char) × List (List Char) :=
  (currentVulns.filter (fun i => i ∉ latestVulns),
   latestVulns.filter (fun i => i ∉ currentVulns))

/-- The inner update of one tracking row: rewrite `Fixed_Version` with the
candidate image when the finding id is fixed and the row still says
"Check Manually". -/
def updateRow (fixedVulns : List (List Char)) (acrImage : List Char)
    (row : TrackingRow) : TrackingRow :=
  if row.vulnId ∈ fixedVulns ∧ row.fixedVersion = "Check Manually".toList then
    { row with fixedVersion := acrImage }
  else row

/-- What `update_fixed_versions` knows about one image once the file-system
steps resolved: the chosen candidate's full reference and the two id sets.
`none` collapses every skip (`continue`) condition of the loop: the baseline
SBOM file is absent, no candidate file matches the normalized name, or the
candidate SBOM file is absent. -/
structure ImageComparison where
  acrImage : List Char
  currentVulns : List (List Char)
  latestVulns : List (List Char)
deriving DecidableEq

/-- The body of the per-image loop of `update_fixed_versions`, applied to one
row: skip (`continue`) when the image does not resolve, and only enter the
update when some id was fixed (`if fixed_vulns:`). -/
def processTrackingRow (env : List Char → Option ImageComparison)
    (row : TrackingRow) : TrackingRow :=
  match env row.image with
  | none => row
  | some cmp =>
    let fixedVulns := (compare_image_vulnerabilities cmp.currentVulns cmp.latestVulns).1
    if fixedVulns.isEmpty then row else updateRow fixedVulns cmp.acrImage row

/-- `update_fixed_versions` over the tracking rows.  The source groups the
rows by image and mutates each group's rows in place; since each row's update
depends only on its own image's comparison data, this equals a map over the
rows. -/
def update_fixed_versions (env : List Char → Option ImageComparison)
    (rows : List TrackingRow) : List TrackingRow :=
  rows.map (processTrackingRow env)

/-- `re.sub(r'[:|@].*$', '', image)` on one scan position: at a character of
the class, `.*` (which cannot cross a newline) reaches the end-anchor exactly
when what follows the longest newline-free run is nothing or a final newline;
the match (greedy) swallows that run and scanning resumes after it. -/
def subTagDigest : List Char → List Char
  | [] => []
  | c :: rest =>
    if (c = ':' ∨ c = '|' ∨ c = '@') ∧
        (rest.dropWhile (fun x => x ≠ '\n') = [] ∨
         rest.dropWhile (fun x => x ≠ '\n') = ['\n']) then
      rest.dropWhile (fun x => x ≠ '\n')
    else c :: subTagDigest rest

/-- `normalize_image_name`: strip tag/digest via the regular expression. -/
def normalize_image_name (image : List Char) : List Char := subTagDigest image

/-- Python `s.replace(old, '__')` for a single-character `old`. -/
def replaceChar (s : List Char) (old : Char) (new : List Char) : List Char :=
  s.foldr (fun c acc => if c = old then new ++ acc else c :: acc) []

/-- `base_pattern` of `find_acr_image_version`. -/
def base_pattern (image : List Char) : List Char :=
  replaceChar (replaceChar (normalize_image_name image) '/' "__".toList) ':' "__".toList

/-- `sbom_file.name.startswith(base_pattern + '__')`: does a candidate SBOM
file name match the normalized image? -/
def acrFileMatches (image fname : List Char) : Bool :=
  (base_pattern image ++ "__".toList).isPrefixOf fname

/-- Python `filename.split('__')` (leftmost, non-overlapping). -/
def splitDunder : List Char → List (List Char)
  | '_' :: '_' :: rest => [] :: splitDunder rest
  | c :: rest =>
    match splitDunder rest with
    | h :: t => (c :: h) :: t
    | [] => [[c]]
  | [] => [[]]

/-- `Path.stem` for the `.json` files the glob returns. -/
def fileStem (f : List Char) : List Char :=
  if ".json".toList.isSuffixOf f then f.take (f.length - 5) else f

/-- `find_acr_image_version` over the directory listing (the names of the
`*.json` files of the candidate SBOM directory, in glob order): pick the first
matching file and convert `registry__path__tag` back to `registry/path:tag`. -/
def find_acr_image_version (image : List Char) (files : List (List Char)) :
    Option (List Char) :=
  match files.filter (acrFileMatches image) with
  | [] => none
  | chosen :: _ =>
    let parts := splitDunder (fileStem chosen)
    if 3 ≤ parts.length then
      some ((parts.headD []) ++ '/' ::
        List.intercalate "/".toList ((parts.drop 1).dropLast) ++ ':' :: parts.getLastD [])
    else none

/-! ## Definitions following the specification's words (for refinement claims) -/

/-- spec: the status table of §4.4, as a function of the two counts at a key
(`none` = key absent on that side). -/
def specStatus : Option Nat → Option Nat → Option (List Char)
  | some _, none => some "FIXED".toList
  | none, some _ => some "NEW".toList
  | some b, some c =>
    some (if c < b then "IMPROVED".toList
      else if b < c then "WORSENED".toList
      else "UNCHANGED".toList)
  | none, none => none

/-- The vulnerability count filed at a key of a PackageSummary map. -/
def countAt (d : List (List Char × SummaryRow)) (k : List Char) : Option Nat :=
  (dictGet? d k).map SummaryRow.count

/-- spec: severity rank table Critical(0) < High(1) < Medium(2) < Low(3),
everything else 4. -/
def specSeverityRank (s : List Char) : Nat :=
  if s = "Critical".toList then 0
  else if s = "High".toList then 1
  else if s = "Medium".toList then 2
  else if s = "Low".toList then 3
  else 4

/-- spec: the numeric value of a score string — a decimal numeral made of
digits and at most one dot, with at least one digit; `none` otherwise. -/
def decimalValue? (s : List Char) : Option (Nat × Nat) :=
  if s.any Char.isDigit ∧ s.all (fun c => c.isDigit || c = '.') then floatOfScore? s
  else none

/-- spec: non-numeric scores order as 0. -/
def specScore (s : List Char) : Nat × Nat := (decimalValue? s).getD (0, 0)

/-- spec: the ordering key of claim C7 — severity rank, and the score value
(compared descending by `keyLe`). -/
def specKey (r : RemRow) : Nat × (Nat × Nat) := (specSeverityRank r.severity, specScore r.cvss)

/-- spec: the record order of claim C7. -/
def specRowLe (a b : RemRow) : Bool := keyLe (specKey a) (specKey b)

/-- spec (claim C3's words): the severity of the first rating entry exposing
a severity. -/
def claimFirstSeverity : List Rating → Option (List Char)
  | [] => none
  | r :: rs => if r.severity ≠ [] then some r.severity else claimFirstSeverity rs

/-- spec: the first non-empty score among the rating entries. -/
def specFirstScore : List Rating → Option (List Char)
  | [] => none
  | r :: rs => if r.score ≠ [] then some r.score else specFirstScore rs

/-- The last severity seen, starting from `acc`, scanning left to right. -/
def lastSevGo : Option (List Char) → List Rating → Option (List Char)
  | acc, [] => acc
  | acc, r :: rs => lastSevGo (if r.severity ≠ [] then some r.severity else acc) rs

/-- The prefix of the ratings list up to and including the first score-bearing
entry (the whole list when none carries a score). -/
def ratingsUpToFirstScore : List Rating → List Rating
  | [] => []
  | r :: rs => if r.score ≠ [] then [r] else r :: ratingsUpToFirstScore rs

/-- spec (amended C3): the title-cased severity of the last severity-bearing
rating at or before the first score-bearing rating, defaulting to "Unknown". -/
def specSeverityAmended (ratings : List Rating) : List Char :=
  match lastSevGo none (ratingsUpToFirstScore ratings) with
  | some s => pyTitle s
  | none => "Unknown".toList

/-- spec: the extracted CVSS score string, defaulting to "Unknown". -/
def specScoreStr (ratings : List Rating) : List Char :=
  (specFirstScore ratings).getD "Unknown".toList

/-- Greedy repetition `(\.\d+)+`: the consumed text and the remainder (fuel =
string length, an upper bound since every round consumes characters). -/
def dotDigitRunsGo : Nat → List Char → List Char × List Char
  | 0, cs => ([], cs)
  | fuel + 1, '.' :: rest =>
    let d := rest.takeWhile Char.isDigit
    if d.isEmpty then ([], '.' :: rest)
    else
      let p := dotDigitRunsGo fuel (rest.drop d.length)
      ('.' :: (d ++ p.1), p.2)
  | _ + 1, cs => ([], cs)

def dotDigitRuns (cs : List Char) : List Char × List Char := dotDigitRunsGo cs.length cs

/-- The matcher of one position for the claim's regular expression
`\d+(\.\d+)+`. -/
def matchClaimAt (cs : List Char) : Option (List Char × List Char) :=
  let d := cs.takeWhile Char.isDigit
  if d.isEmpty then none
  else
    let p := dotDigitRuns (cs.drop d.length)
    if p.1.isEmpty then none else some (d ++ p.1, p.2)

/-- Leftmost non-overlapping matches of `\d+(\.\d+)+` (fuel = string length
bounds the scan). -/
def findAllClaimGo : Nat → List Char → List (List Char)
  | 0, _ => []
  | _ + 1, [] => []
  | fuel + 1, c :: rest =>
    match matchClaimAt (c :: rest) with
    | some (m, remainder) => m :: findAllClaimGo fuel remainder
    | none => findAllClaimGo fuel rest

/-- spec: every match of `\d+(\.\d+)+` in a string. -/
def findAllClaim (s : List Char) : List (List Char) := findAllClaimGo s.length s

/-- spec (claim C4's words): the fixed-version string — union of the
fixed/patched affect versions and of every `\d+(\.\d+)+` match of each
advisory URL containing "fixed", sorted and comma-joined, else
"Check Manually". -/
def claimFixedVersion (v : Vuln) : List Char :=
  let fromAffects := v.affects.flatMap (fun a =>
    a.versions.filterMap (fun vi =>
      if containsSub "fixed".toList (pyLower vi.status) ||
          containsSub "patched".toList (pyLower vi.status) then some vi.version
      else none))
  let fromAdv := v.advisories.flatMap (fun adv =>
    if containsSub "fixed".toList (pyLower adv.url) then findAllClaim adv.url else [])
  let all := fromAffects ++ fromAdv
  if all = [] then "Check Manually".toList else sortedJoin ", ".toList all

/-- spec (amended C4): as claim C4 but clause (b) contributes only the FIRST
match, of the code's regular expression `\d+\.[\d.]+`, per advisory URL. -/
def specFixedVersionAmended (v : Vuln) : List Char :=
  let fromAffects := v.affects.flatMap (fun a =>
    a.versions.filterMap (fun vi =>
      if containsSub "fixed".toList (pyLower vi.status) ||
          containsSub "patched".toList (pyLower vi.status) then some vi.version
      else none))
  let fromAdv := v.advisories.filterMap (fun adv =>
    if containsSub "fixed".toList (pyLower adv.url) then reSearchVersion adv.url else none)
  let all := fromAffects ++ fromAdv
  if all = [] then "Check Manually".toList else sortedJoin ", ".toList all

/-- The highest severity of a package group, as a named abbreviation. -/
def groupHighestSeverity (vulns : List RemRow) : List Char :=
  highestSeverity (vulns.map RemRow.severity)

/-! ## Concrete example inputs for counterexamples and witnesses -/

/-- Ratings where the first severity ("low") precedes the rating that carries
the first score: the loop overwrites the severity before breaking. -/
def c3Ratings : List Rating := [⟨"low".toList, []⟩, ⟨"high".toList, "7.5".toList⟩]

/-- A finding whose only fix hint is an advisory URL with two version-like
substrings after "fixed". -/
def c4Vuln : Vuln :=
  { id := some "CVE-X".toList, ratings := [], affects := [],
    advisories := [⟨"https://example.com/fixed/1.2-and-3.4".toList⟩], description := [] }

/-- Two findings that both lack an id (and ratings), each affecting one
component. -/
def c5VulnA : Vuln :=
  { id := none, ratings := [], affects := [⟨"pkg:pypi/aaa@1.0".toList, []⟩],
    advisories := [], description := [] }

def c5VulnB : Vuln :=
  { id := none, ratings := [], affects := [⟨"pkg:pypi/bbb@2.0".toList, []⟩],
    advisories := [], description := [] }

/-- An id-bearing finding preceding the id-less ones in the C5 witness
document. -/
def c5PreVuln : Vuln :=
  { id := some "CVE-1".toList, ratings := [⟨"high".toList, "7.5".toList⟩],
    affects := [⟨"pkg:pypi/ccc@3.0".toList, []⟩], advisories := [], description := [] }

/-- Scenario C-style summary rows: same key, baseline count 5, candidate
count 2. -/
def w1ProdRow : SummaryRow :=
  { packageName := "foo".toList, currentVersion := "1.0".toList, count := 5,
    priority := "High".toList, severityBreakdown := "Critical: 1, High: 4".toList }

def w1LatestRow : SummaryRow :=
  { packageName := "foo".toList, currentVersion := "1.0".toList, count := 2,
    priority := "Medium".toList, severityBreakdown := "Medium: 2".toList }

/-- Scenario D-style tracking rows for one baseline image. -/
def w6Row (vid fv : String) : TrackingRow :=
  { image := "reg/app:1.0".toList, vulnId := vid.toList,
    packageName := "libx".toList, currentVersion := "3.1".toList,
    fixedVersion := fv.toList, rest := [("Severity".toList, "High".toList)] }

def w6Rows : List TrackingRow :=
  [w6Row "CVE-A" "Check Manually", w6Row "CVE-B" "Check Manually",
   w6Row "CVE-C" "1.2, 1.3", w6Row "CVE-D" "Check Manually"]

/-- Scenario D comparison data: baseline ids {A,B,C,D} minus candidate ids
{B,D} fixes A and C. -/
def w6Cmp : ImageComparison :=
  { acrImage := "reg/app:2.0".toList,
    currentVulns := ["CVE-A".toList, "CVE-B".toList, "CVE-C".toList, "CVE-D".toList],
    latestVulns := ["CVE-B".toList, "CVE-D".toList] }

/-- Scenario D environment: only the baseline image resolves. -/
def w6Env (img : List Char) : Option ImageComparison :=
  if img = "reg/app:1.0".toList then some w6Cmp else none

/-- Rows for the sort witness: a non-numeric score, a High and a Critical. -/
def w7Row (sev score : String) : RemRow :=
  { image := "img".toList, vulnId := "CVE".toList, packageName := "p".toList,
    currentVersion := "1".toList, packageType := "library".toList,
    severity := sev.toList, cvss := score.toList,
    fixedVersion := "Check Manually".toList, description := [],
    status := "Pending".toList }

def w7Rows : List RemRow :=
  [w7Row "High" "Unknown", w7Row "Critical" "9.8", w7Row "High" "8.1",
   w7Row "High" "7.5"]

/-- A one-record group for the aggregator witness. -/
def w8Row : RemRow := w7Row "Critical" "9.8"

/-! ## Helper lemmas -/

theorem subTagDigest_of_no_newline (l : List Char) (h : '\n' ∉ l) :
    subTagDigest l = l.takeWhile (fun c => !(c = ':' || c = '|' || c = '@')) := by
  induction l with
  | nil => rfl
  | cons c rest ih =>
    simp only [List.mem_cons, not_or] at h
    obtain ⟨hc, hrest⟩ := h
    have hdrop : rest.dropWhile (fun x => x ≠ '\n') = [] := by
      rw [List.dropWhile_eq_nil_iff]
      intro x hx
      simp only [ne_eq, decide_eq_true_eq]
      intro hxeq
      exact hrest (hxeq ▸ hx)
    by_cases hcls : c = ':' ∨ c = '|' ∨ c = '@'
    · rw [subTagDigest]
      rw [if_pos ⟨hcls, Or.inl hdrop⟩, hdrop, List.takeWhile_cons]
      have : (!(c = ':' || c = '|' || c = '@')) = false := by
        rcases hcls with h | h | h <;> simp [h]
      rw [this]
      simp
    · rw [subTagDigest, if_neg (fun hh => hcls hh.1), List.takeWhile_cons]
      have : (!(c = ':' || c = '|' || c = '@')) = true := by
        simp only [not_or] at hcls
        simp [hcls.1, hcls.2.1, hcls.2.2]
      rw [this]
      simp only [if_true]
      rw [ih (fun hx => hrest hx)]

theorem lastSevGo_acc (l : List Rating) : ∀ acc : Option (List Char),
    lastSevGo acc l = (lastSevGo none l).or acc := by
  induction l with
  | nil => intro acc; rfl
  | cons r rs ih =>
    intro acc
    have e1 : lastSevGo acc (r :: rs) =
        lastSevGo (if r.severity ≠ [] then some r.severity else acc) rs := rfl
    have e2 : lastSevGo none (r :: rs) =
        lastSevGo (if r.severity ≠ [] then some r.severity else none) rs := rfl
    rw [e1, e2, ih, ih (if r.severity ≠ [] then some r.severity else none)]
    cases h : lastSevGo none rs with
    | some s => rfl
    | none =>
      by_cases hc : r.severity ≠ []
      · rw [if_pos hc, if_pos hc]; rfl
      · rw [if_neg hc, if_neg hc]; rfl

theorem getD_lastSevGo (l : List Rating) (r : Rating) (sev : List Char) :
    ((lastSevGo (if r.severity ≠ [] then some r.severity else none) l).map pyTitle).getD sev =
    ((lastSevGo none l).map pyTitle).getD (if r.severity ≠ [] then pyTitle r.severity else sev) := by
  rw [lastSevGo_acc]
  cases h : lastSevGo none l with
  | some s => rfl
  | none => by_cases hc : r.severity ≠ [] <;> simp [hc]

theorem extractSevScoreGo_spec (ratings : List Rating) : ∀ sev cvss : List Char,
    extractSevScoreGo sev cvss ratings =
      (((lastSevGo none (ratingsUpToFirstScore ratings)).map pyTitle).getD sev,
       (specFirstScore ratings).getD cvss) := by
  induction ratings with
  | nil => intro sev cvss; rfl
  | cons r rs ih =>
    intro sev cvss
    by_cases hsc : r.score ≠ []
    · have e : extractSevScoreGo sev cvss (r :: rs) =
          (if r.severity ≠ [] then pyTitle r.severity else sev, r.score) := by
        simp [extractSevScoreGo, hsc]
      have e2 : ratingsUpToFirstScore (r :: rs) = [r] := by
        simp [ratingsUpToFirstScore, hsc]
      have e3 : specFirstScore (r :: rs) = some r.score := by
        simp [specFirstScore, hsc]
      rw [e, e2, e3]
      by_cases hs : r.severity ≠ [] <;> simp [hs, lastSevGo]
    · have e : extractSevScoreGo sev cvss (r :: rs) =
          extractSevScoreGo (if r.severity ≠ [] then pyTitle r.severity else sev) cvss rs := by
        simp [extractSevScoreGo, hsc]
      have e2 : ratingsUpToFirstScore (r :: rs) = r :: ratingsUpToFirstScore rs := by
        simp [ratingsUpToFirstScore, hsc]
      have e3 : specFirstScore (r :: rs) = specFirstScore rs := by
        simp [specFirstScore, hsc]
      rw [e, ih, e2, e3]
      have e4 : lastSevGo none (r :: ratingsUpToFirstScore rs) =
          lastSevGo (if r.severity ≠ [] then some r.severity else none)
            (ratingsUpToFirstScore rs) := rfl
      rw [e4, getD_lastSevGo]

theorem genRowsGo_append (imageName : List Char) (comps : List Component) :
    ∀ (pre rest : List Vuln) (procd : List (List Char)),
    genRowsGo imageName comps procd (pre ++ rest) =
      genRowsGo imageName comps procd pre ++
      genRowsGo imageName comps (processedAfter procd pre) rest := by
  intro pre
  induction pre with
  | nil => intro rest procd; rfl
  | cons v pre2 ih =>
    intro rest procd
    rw [List.cons_append]
    by_cases hmem : v.id.getD "Unknown".toList ∈ procd
    · have e1 : genRowsGo imageName comps procd (v :: (pre2 ++ rest)) =
          genRowsGo imageName comps procd (pre2 ++ rest) := by
        simp only [genRowsGo, if_pos hmem]
      have e2 : genRowsGo imageName comps procd (v :: pre2) =
          genRowsGo imageName comps procd pre2 := by
        simp only [genRowsGo, if_pos hmem]
      have e3 : processedAfter procd (v :: pre2) = processedAfter procd pre2 := by
        simp only [processedAfter, if_pos hmem]
      rw [e1, e2, e3, ih]
    · have e1 : genRowsGo imageName comps procd (v :: (pre2 ++ rest)) =
          rowsForVuln imageName comps v (v.id.getD "Unknown".toList) ++
          genRowsGo imageName comps (v.id.getD "Unknown".toList :: procd) (pre2 ++ rest) := by
        simp only [genRowsGo, if_neg hmem]
      have e2 : genRowsGo imageName comps procd (v :: pre2) =
          rowsForVuln imageName comps v (v.id.getD "Unknown".toList) ++
          genRowsGo imageName comps (v.id.getD "Unknown".toList :: procd) pre2 := by
        simp only [genRowsGo, if_neg hmem]
      have e3 : processedAfter procd (v :: pre2) =
          processedAfter (v.id.getD "Unknown".toList :: procd) pre2 := by
        simp only [processedAfter, if_neg hmem]
      rw [e1, e2, e3, ih, List.append_assoc]

theorem mem_processedAfter : ∀ (pre : List Vuln) (procd : List (List Char)) (k : List Char),
    k ∈ processedAfter procd pre →
    k ∈ procd ∨ ∃ u ∈ pre, u.id.getD "Unknown".toList = k := by
  intro pre
  induction pre with
  | nil => intro procd k h; exact Or.inl h
  | cons v pre2 ih =>
    intro procd k h
    rw [processedAfter] at h
    by_cases hmem : v.id.getD "Unknown".toList ∈ procd
    · rw [if_pos hmem] at h
      rcases ih procd k h with h2 | ⟨u, hu, hk⟩
      · exact Or.inl h2
      · exact Or.inr ⟨u, List.mem_cons_of_mem v hu, hk⟩
    · rw [if_neg hmem] at h
      rcases ih _ k h with h2 | ⟨u, hu, hk⟩
      · rcases List.mem_cons.mp h2 with rfl | h3
        · exact Or.inr ⟨v, List.mem_cons_self v pre2, rfl⟩
        · exact Or.inl h3
      · exact Or.inr ⟨u, List.mem_cons_of_mem v hu, hk⟩

theorem genRowsGo_drop_idless (imageName : List Char) (comps : List Component) :
    ∀ (rest : List Vuln) (procd : List (List Char)), "Unknown".toList ∈ procd →
    genRowsGo imageName comps procd rest =
      genRowsGo imageName comps procd (rest.filter (fun u => u.id.isSome)) := by
  intro rest
  induction rest with
  | nil => intro procd _; rfl
  | cons u rest2 ih =>
    intro procd hU
    rw [List.filter_cons]
    cases hid : u.id with
    | none =>
      have hvid : u.id.getD "Unknown".toList = "Unknown".toList := by rw [hid]; rfl
      have e1 : genRowsGo imageName comps procd (u :: rest2) =
          genRowsGo imageName comps procd rest2 := by
        simp only [genRowsGo, hvid, if_pos hU]
      rw [e1, ih procd hU]
      simp
    | some i =>
      rw [if_pos (show (some i).isSome = true from rfl)]
      by_cases hmem : u.id.getD "Unknown".toList ∈ procd
      · have e1 : ∀ tl, genRowsGo imageName comps procd (u :: tl) =
            genRowsGo imageName comps procd tl := by
          intro tl
          simp only [genRowsGo, if_pos hmem]
        rw [e1, e1, ih procd hU]
      · have e1 : ∀ tl, genRowsGo imageName comps procd (u :: tl) =
            rowsForVuln imageName comps u (u.id.getD "Unknown".toList) ++
            genRowsGo imageName comps (u.id.getD "Unknown".toList :: procd) tl := by
          intro tl
          simp only [genRowsGo, if_neg hmem]
        rw [e1, e1, ih (u.id.getD "Unknown".toList :: procd) (List.mem_cons_of_mem _ hU)]

theorem versionsFoldl (versions : List VersionEntry) : ∀ acc : List (List Char),
    versions.foldl (fun acc2 vi =>
      if containsSub "fixed".toList (pyLower vi.status) then acc2 ++ [vi.version]
      else if containsSub "patched".toList (pyLower vi.status) then acc2 ++ [vi.version]
      else acc2) acc =
    acc ++ versions.filterMap (fun vi =>
      if containsSub "fixed".toList (pyLower vi.status) ||
          containsSub "patched".toList (pyLower vi.status) then some vi.version
      else none) := by
  induction versions with
  | nil => intro acc; simp
  | cons vi vs ih =>
    intro acc
    rw [List.foldl_cons, List.filterMap_cons, ih]
    by_cases h1 : containsSub "fixed".toList (pyLower vi.status) = true
    · simp_all [List.append_assoc]
    · by_cases h2 : containsSub "patched".toList (pyLower vi.status) = true <;>
        simp_all [List.append_assoc]

theorem affectsFoldl (affects : List Affect) : ∀ acc : List (List Char),
    affects.foldl (fun acc a =>
      a.versions.foldl (fun acc2 vi =>
        if containsSub "fixed".toList (pyLower vi.status) then acc2 ++ [vi.version]
        else if containsSub "patched".toList (pyLower vi.status) then acc2 ++ [vi.version]
        else acc2) acc) acc =
    acc ++ affects.flatMap (fun a =>
      a.versions.filterMap (fun vi =>
        if containsSub "fixed".toList (pyLower vi.status) ||
            containsSub "patched".toList (pyLower vi.status) then some vi.version
        else none)) := by
  induction affects with
  | nil => intro acc; simp
  | cons a as ih =>
    intro acc
    rw [List.foldl_cons, List.flatMap_cons, ih, versionsFoldl, List.append_assoc]

theorem advisoriesFoldl (advs : List Advisory) : ∀ acc : List (List Char),
    advs.foldl (fun acc adv =>
      if containsSub "fixed".toList (pyLower adv.url) then
        match reSearchVersion adv.url with
        | some m => acc ++ [m]
        | none => acc
      else acc) acc =
    acc ++ advs.filterMap (fun adv =>
      if containsSub "fixed".toList (pyLower adv.url) then reSearchVersion adv.url
      else none) := by
  induction advs with
  | nil => intro acc; simp
  | cons adv advs2 ih =>
    intro acc
    rw [List.foldl_cons, List.filterMap_cons, ih]
    by_cases h1 : containsSub "fixed".toList (pyLower adv.url) = true
    · cases h2 : reSearchVersion adv.url <;> simp_all [List.append_assoc]
    · simp_all [List.append_assoc]

theorem scoreValLe_trans (a b c : Nat × Nat) (h1 : scoreValLe a b = true)
    (h2 : scoreValLe b c = true) : scoreValLe a c = true := by
  simp only [scoreValLe, decide_eq_true_eq] at h1 h2 ⊢
  have h1' := Nat.mul_le_mul_right (10 ^ c.2) h1
  have h2' := Nat.mul_le_mul_right (10 ^ a.2) h2
  have h3 : a.1 * 10 ^ b.2 * 10 ^ c.2 ≤ c.1 * 10 ^ b.2 * 10 ^ a.2 := by
    refine le_trans h1' (le_trans ?_ h2')
    rw [mul_right_comm]
  have h4 : a.1 * 10 ^ c.2 * 10 ^ b.2 ≤ c.1 * 10 ^ a.2 * 10 ^ b.2 := by
    calc a.1 * 10 ^ c.2 * 10 ^ b.2 = a.1 * 10 ^ b.2 * 10 ^ c.2 := by rw [mul_right_comm]
      _ ≤ c.1 * 10 ^ b.2 * 10 ^ a.2 := h3
      _ = c.1 * 10 ^ a.2 * 10 ^ b.2 := by rw [mul_right_comm]
  exact Nat.le_of_mul_le_mul_right h4 (pow_pos (by norm_num) _)

theorem scoreValLe_total (a b : Nat × Nat) :
    (scoreValLe a b || scoreValLe b a) = true := by
  simp only [scoreValLe, Bool.or_eq_true, decide_eq_true_eq]
  exact Nat.le_total _ _

theorem scoreValLe_refl (a : Nat × Nat) : scoreValLe a a = true := by
  simp [scoreValLe]

theorem keyLe_refl (k : Nat × (Nat × Nat)) : keyLe k k = true := by
  simp [keyLe, scoreValLe_refl]

theorem keyLe_trans (a b c : Nat × (Nat × Nat)) (h1 : keyLe a b = true)
    (h2 : keyLe b c = true) : keyLe a c = true := by
  simp only [keyLe, Bool.or_eq_true, Bool.and_eq_true, decide_eq_true_eq] at h1 h2 ⊢
  rcases h1 with h1 | ⟨h1e, h1s⟩ <;> rcases h2 with h2 | ⟨h2e, h2s⟩
  · exact Or.inl (lt_trans h1 h2)
  · exact Or.inl (h2e ▸ h1)
  · exact Or.inl (h1e ▸ h2)
  · exact Or.inr ⟨h1e.trans h2e, scoreValLe_trans _ _ _ h2s h1s⟩

theorem keyLe_total (a b : Nat × (Nat × Nat)) : (keyLe a b || keyLe b a) = true := by
  simp only [keyLe, Bool.or_eq_true, Bool.and_eq_true, decide_eq_true_eq]
  rcases Nat.lt_trichotomy a.1 b.1 with h | h | h
  · exact Or.inl (Or.inl h)
  · rcases Bool.or_eq_true _ _ |>.mp (scoreValLe_total b.2 a.2) with hs | hs
    · exact Or.inl (Or.inr ⟨h, hs⟩)
    · exact Or.inr (Or.inr ⟨h.symm, hs⟩)
  · exact Or.inr (Or.inl h)

theorem rowLe_trans (a b c : RemRow) (h1 : rowLe a b = true) (h2 : rowLe b c = true) :
    rowLe a c = true := keyLe_trans _ _ _ h1 h2

theorem rowLe_total (a b : RemRow) : (rowLe a b || rowLe b a) = true := keyLe_total _ _

theorem severityRank_eq_spec (s : List Char) : severityRank s = specSeverityRank s := by
  simp only [severityRank, severity_priority, severity_order, dictGet?, specSeverityRank]
  split_ifs <;> rfl

theorem scoreGuard_imp (s : List Char) (h : scoreGuard s = true) :
    s.any Char.isDigit = true ∧ s.all (fun c => c.isDigit || c = '.') = true := by
  simp only [scoreGuard, pyIsdigit, removeDots, Bool.and_eq_true, Bool.not_eq_true',
    List.isEmpty_eq_false_iff_exists_mem, List.all_eq_true] at h
  obtain ⟨⟨c, hc⟩, hall⟩ := h
  have hcs := List.mem_filter.mp hc
  constructor
  · rw [List.any_eq_true]
    exact ⟨c, hcs.1, hall c hc⟩
  · rw [List.all_eq_true]
    intro x hx
    by_cases hdot : x = '.'
    · simp [hdot]
    · have hxf : x ∈ s.filter (fun c => c != '.') := by
        rw [List.mem_filter]
        exact ⟨hx, by simpa using hdot⟩
      simp [hall x hxf]

theorem scoreGuard_false_decimal (s : List Char) (h : scoreGuard s = false) :
    decimalValue? s = none := by
  rw [decimalValue?, if_neg]
  rintro ⟨hany, hall⟩
  rw [List.any_eq_true] at hany
  obtain ⟨c, hcs, hcd⟩ := hany
  rw [List.all_eq_true] at hall
  have hguard : scoreGuard s = true := by
    simp only [scoreGuard, pyIsdigit, removeDots, Bool.and_eq_true, Bool.not_eq_true',
      List.isEmpty_eq_false_iff_exists_mem, List.all_eq_true]
    refine ⟨⟨c, ?_⟩, ?_⟩
    · rw [List.mem_filter]
      refine ⟨hcs, ?_⟩
      have : c ≠ '.' := fun hd => by rw [hd] at hcd; exact absurd hcd (by decide)
      simpa using this
    · intro x hx
      have hxs := List.mem_filter.mp hx
      have hne : x ≠ '.' := by simpa using hxs.2
      rcases Bool.or_eq_true _ _ |>.mp (hall x hxs.1) with hd | hd
      · exact hd
      · exact absurd (by simpa using hd) hne
  rw [hguard] at h
  exact absurd h (by decide)

theorem codeSortKey_getD_spec (r : RemRow) (h : (codeSortKey r).isSome = true) :
    (codeSortKey r).getD (0, (0, 0)) = specKey r := by
  by_cases hg : scoreGuard r.cvss = true
  · rw [codeSortKey, if_pos hg] at h ⊢
    cases hf : floatOfScore? r.cvss with
    | none => rw [hf] at h; simp at h
    | some q =>
      show (severityRank r.severity, q) = specKey r
      have h2 : specScore r.cvss = q := by
        obtain ⟨ha, hb⟩ := scoreGuard_imp r.cvss hg
        rw [specScore, decimalValue?, if_pos ⟨ha, hb⟩, hf]
        rfl
      rw [specKey, severityRank_eq_spec, h2]
  · rw [codeSortKey, if_neg hg]
    show (severityRank r.severity, (0, 0)) = specKey r
    have h2 : specScore r.cvss = (0, 0) := by
      rw [specScore, scoreGuard_false_decimal r.cvss (by simpa using hg)]
      rfl
    rw [specKey, severityRank_eq_spec, h2]

theorem compare_fst (cur lat : List (List Char)) :
    (compare_image_vulnerabilities cur lat).1 = cur.filter (fun i => i ∉ lat) := rfl

theorem processTrackingRow_some (env : List Char → Option ImageComparison)
    (row : TrackingRow) (cmp : ImageComparison) (hcmp : env row.image = some cmp) :
    processTrackingRow env row =
      if row.vulnId ∈ cmp.currentVulns ∧ row.vulnId ∉ cmp.latestVulns ∧
          row.fixedVersion = "Check Manually".toList
      then { row with fixedVersion := cmp.acrImage }
      else row := by
  unfold processTrackingRow
  rw [hcmp]
  show (if ((compare_image_vulnerabilities cmp.currentVulns cmp.latestVulns).1.isEmpty) then row
      else updateRow (compare_image_vulnerabilities cmp.currentVulns cmp.latestVulns).1
        cmp.acrImage row) = _
  by_cases hc : row.vulnId ∈ cmp.currentVulns ∧ row.vulnId ∉ cmp.latestVulns ∧
      row.fixedVersion = "Check Manually".toList
  · rw [if_pos hc]
    have hmem : row.vulnId ∈
        (compare_image_vulnerabilities cmp.currentVulns cmp.latestVulns).1 := by
      rw [compare_fst, List.mem_filter]
      exact ⟨hc.1, by simpa using hc.2.1⟩
    have hnot : ¬((compare_image_vulnerabilities cmp.currentVulns cmp.latestVulns).1.isEmpty
        = true) := by
      rw [List.isEmpty_iff]
      exact fun h0 => absurd (h0 ▸ hmem) (List.not_mem_nil _)
    rw [if_neg hnot, updateRow, if_pos ⟨hmem, hc.2.2⟩]
  · rw [if_neg hc]
    by_cases he : ((compare_image_vulnerabilities cmp.currentVulns cmp.latestVulns).1.isEmpty
        = true)
    · rw [if_pos he]
    · rw [if_neg he]
      have hnc : ¬(row.vulnId ∈
          (compare_image_vulnerabilities cmp.currentVulns cmp.latestVulns).1 ∧
          row.fixedVersion = "Check Manually".toList) := by
        rintro ⟨hm, hcm⟩
        rw [compare_fst, List.mem_filter] at hm
        exact hc ⟨hm.1, by simpa using hm.2, hcm⟩
      rw [updateRow, if_neg hnc]

theorem pyMinBy_le {α : Type} (f : α → Nat) : ∀ (xs : List α) (x : α),
    f (pyMinBy f x xs) ≤ f x ∧ ∀ y ∈ xs, f (pyMinBy f x xs) ≤ f y := by
  intro xs
  induction xs with
  | nil => intro x; exact ⟨le_refl _, fun y h => absurd h (List.not_mem_nil y)⟩
  | cons y ys ih =>
    intro x
    have e : pyMinBy f x (y :: ys) = pyMinBy f (if f y < f x then y else x) ys := rfl
    rw [e]
    obtain ⟨h1, h2⟩ := ih (if f y < f x then y else x)
    refine ⟨le_trans h1 ?_, fun z hz => ?_⟩
    · by_cases hc : f y < f x
      · rw [if_pos hc]; omega
      · rw [if_neg hc]
    · rcases List.mem_cons.mp hz with rfl | hz2
      · refine le_trans h1 ?_
        by_cases hc : f z < f x
        · rw [if_pos hc]
        · rw [if_neg hc]; omega
      · exact h2 z hz2

theorem highestSeverity_le_mem (sevs : List (List Char)) (s : List Char) (h : s ∈ sevs) :
    sevPriorityRank (highestSeverity sevs) ≤ sevPriorityRank s := by
  cases sevs with
  | nil => exact absurd h (List.not_mem_nil s)
  | cons a as =>
    rcases List.mem_cons.mp h with rfl | h2
    · exact (pyMinBy_le sevPriorityRank as s).1
    · exact (pyMinBy_le sevPriorityRank as a).2 s h2

theorem sevPriorityRank_le_one (s : List Char) (h : sevPriorityRank s ≤ 1) :
    s = "Critical".toList ∨ s = "High".toList := by
  simp only [sevPriorityRank, severity_priority, dictGet?] at h
  split_ifs at h with h1 h2 h3 h4 <;> simp_all

theorem mem_pyDictSet {K V : Type} [DecidableEq K] (d : List (K × V)) (k : K) (v : V)
    (kv : K × V) (h : kv ∈ pyDictSet d k v) : kv ∈ d ∨ kv = (k, v) := by
  induction d with
  | nil =>
    rw [pyDictSet] at h
    rcases List.mem_singleton.mp h with rfl
    exact Or.inr rfl
  | cons p rest ih =>
    obtain ⟨k0, v0⟩ := p
    rw [pyDictSet] at h
    by_cases hk : k = k0
    · rw [if_pos hk] at h
      rcases List.mem_cons.mp h with rfl | hmem
      · exact Or.inr (by rw [hk])
      · exact Or.inl (List.mem_cons_of_mem _ hmem)
    · rw [if_neg hk] at h
      rcases List.mem_cons.mp h with rfl | hmem
      · exact Or.inl (List.mem_cons_self _ _)
      · rcases ih hmem with hd | he
        · exact Or.inl (List.mem_cons_of_mem _ hd)
        · exact Or.inr he

theorem keys_pyDictSet {K V : Type} [DecidableEq K] (d : List (K × V)) (k : K) (v : V) :
    (pyDictSet d k v).map Prod.fst =
      if k ∈ d.map Prod.fst then d.map Prod.fst else d.map Prod.fst ++ [k] := by
  induction d with
  | nil => simp [pyDictSet]
  | cons p rest ih =>
    obtain ⟨k0, v0⟩ := p
    rw [pyDictSet]
    by_cases hk : k = k0
    · rw [if_pos hk]
      have : k ∈ ((k0, v0) :: rest).map Prod.fst := by simp [hk]
      rw [if_pos this]
      simp
    · rw [if_neg hk]
      by_cases hm : k ∈ rest.map Prod.fst
      · have : k ∈ ((k0, v0) :: rest).map Prod.fst := by simp [hm]
        rw [if_pos this]
        simp only [List.map_cons, ih, if_pos hm]
      · have : ¬(k ∈ ((k0, v0) :: rest).map Prod.fst) := by
          simp only [List.map_cons, List.mem_cons]
          rintro (h | h)
          · exact hk h
          · exact hm h
        rw [if_neg this]
        simp only [List.map_cons, ih, if_neg hm, List.cons_append]

theorem nodup_keys_pyDictSet {K V : Type} [DecidableEq K] (d : List (K × V)) (k : K) (v : V)
    (h : (d.map Prod.fst).Nodup) : ((pyDictSet d k v).map Prod.fst).Nodup := by
  rw [keys_pyDictSet]
  by_cases hm : k ∈ d.map Prod.fst
  · rw [if_pos hm]; exact h
  · rw [if_neg hm]
    rw [List.nodup_append]
    exact ⟨h, List.nodup_singleton k, fun a ha hb => hm ((List.mem_singleton.mp hb) ▸ ha)⟩

theorem dictGet?_isSome_iff {K V : Type} [DecidableEq K] (d : List (K × V)) (k : K) :
    (dictGet? d k).isSome = true ↔ k ∈ d.map Prod.fst := by
  induction d with
  | nil => simp [dictGet?]
  | cons p rest ih =>
    obtain ⟨k0, v0⟩ := p
    rw [dictGet?]
    by_cases hk : k = k0
    · simp [hk]
    · rw [if_neg hk]
      simp only [List.map_cons, List.mem_cons, ih]
      exact ⟨fun h => Or.inr h, fun h => h.elim (fun h0 => absurd h0 hk) id⟩

theorem dictGet?_eq_some_of_mem {K V : Type} [DecidableEq K] (d : List (K × V)) (k : K)
    (v : V) (hmem : (k, v) ∈ d) (hnd : (d.map Prod.fst).Nodup) : dictGet? d k = some v := by
  induction d with
  | nil => exact absurd hmem (List.not_mem_nil _)
  | cons p rest ih =>
    obtain ⟨k0, v0⟩ := p
    rw [List.map_cons, List.nodup_cons] at hnd
    rw [dictGet?]
    rcases List.mem_cons.mp hmem with he | hmem2
    · rw [Prod.mk.injEq] at he
      rw [if_pos he.1, he.2]
    · have hk : k ≠ k0 := by
        rintro rfl
        exact hnd.1 (List.mem_map.mpr ⟨(k, v), hmem2, rfl⟩)
      rw [if_neg hk]
      exact ih hmem2 hnd.2

theorem buildPackages_aux_key (rows : List SummaryRow) :
    ∀ d : List (List Char × SummaryRow),
      (∀ kv ∈ d, kv.1 = create_package_key kv.2) →
      ∀ kv ∈ rows.foldl (fun d r => pyDictSet d (create_package_key r) r) d,
        kv.1 = create_package_key kv.2 := by
  induction rows with
  | nil => intro d hd kv h; exact hd kv h
  | cons r rest ih =>
    intro d hd kv h
    refine ih (pyDictSet d (create_package_key r) r) ?_ kv h
    intro kv2 h2
    rcases mem_pyDictSet _ _ _ _ h2 with hin | rfl
    · exact hd kv2 hin
    · rfl

theorem buildPackages_key (rows : List SummaryRow) :
    ∀ kv ∈ buildPackages rows, kv.1 = create_package_key kv.2 :=
  buildPackages_aux_key rows [] (fun kv h => absurd h (List.not_mem_nil kv))

theorem buildPackages_aux_nodup (rows : List SummaryRow) :
    ∀ d : List (List Char × SummaryRow),
      (d.map Prod.fst).Nodup →
      ((rows.foldl (fun d r => pyDictSet d (create_package_key r) r) d).map Prod.fst).Nodup := by
  induction rows with
  | nil => intro d hd; exact hd
  | cons r rest ih =>
    intro d hd
    exact ih (pyDictSet d (create_package_key r) r) (nodup_keys_pyDictSet d _ r hd)

theorem buildPackages_nodup (rows : List SummaryRow) :
    ((buildPackages rows).map Prod.fst).Nodup :=
  buildPackages_aux_nodup rows [] List.nodup_nil

theorem buildPackages_aux_mem (rows : List SummaryRow) :
    ∀ (d : List (List Char × SummaryRow)) (k : List Char),
      (k ∈ (rows.foldl (fun d r => pyDictSet d (create_package_key r) r) d).map Prod.fst ↔
        k ∈ d.map Prod.fst ∨ ∃ r ∈ rows, create_package_key r = k) := by
  induction rows with
  | nil =>
    intro d k
    rw [List.foldl_nil]
    refine ⟨fun h => Or.inl h, ?_⟩
    rintro (h | ⟨r, hr, _⟩)
    · exact h
    · exact absurd hr (List.not_mem_nil r)
  | cons r rest ih =>
    intro d k
    rw [List.foldl_cons, ih]
    have hstep : k ∈ (pyDictSet d (create_package_key r) r).map Prod.fst ↔
        k ∈ d.map Prod.fst ∨ create_package_key r = k := by
      rw [keys_pyDictSet]
      by_cases hm : create_package_key r ∈ d.map Prod.fst
      · rw [if_pos hm]
        exact ⟨fun h => Or.inl h, fun h => h.elim id (fun he => he ▸ hm)⟩
      · rw [if_neg hm]
        rw [List.mem_append, List.mem_singleton]
        exact ⟨fun h => h.elim Or.inl (fun he => Or.inr he.symm),
          fun h => h.elim Or.inl (fun he => Or.inr he.symm)⟩
    rw [hstep]
    simp only [List.mem_cons]
    constructor
    · rintro ((h | h) | ⟨r2, hr2, hk2⟩)
      · exact Or.inl h
      · exact Or.inr ⟨r, Or.inl rfl, h⟩
      · exact Or.inr ⟨r2, Or.inr hr2, hk2⟩
    · rintro (h | ⟨r2, (rfl | hr2), hk2⟩)
      · exact Or.inl (Or.inl h)
      · exact Or.inl (Or.inr hk2)
      · exact Or.inr ⟨r2, hr2, hk2⟩

theorem mem_keys_buildPackages (rows : List SummaryRow) (k : List Char) :
    k ∈ (buildPackages rows).map Prod.fst ↔ ∃ r ∈ rows, create_package_key r = k := by
  rw [buildPackages, buildPackages_aux_mem]
  simp

theorem map_entryKey_filterMap {β : Type} (P : List (List Char × β))
    (f : List Char × β → Option DetEntry) (g : List Char → Bool)
    (hf : ∀ kv ∈ P, ∀ e, f kv = some e → entryKey e = kv.1)
    (hg : ∀ kv ∈ P, (f kv).isSome = g kv.1) :
    (P.filterMap f).map entryKey = (P.map Prod.fst).filter g := by
  induction P with
  | nil => rfl
  | cons kv rest ih =>
    rw [List.filterMap_cons, List.map_cons, List.filter_cons]
    have ihr := ih (fun kv2 h2 => hf kv2 (List.mem_cons_of_mem _ h2))
      (fun kv2 h2 => hg kv2 (List.mem_cons_of_mem _ h2))
    cases hfk : f kv with
    | none =>
      have hgf : g kv.1 = false := by
        rw [← hg kv (List.mem_cons_self _ _), hfk]
        rfl
      rw [hgf]
      simpa using ihr
    | some e =>
      have hgt : g kv.1 = true := by
        rw [← hg kv (List.mem_cons_self _ _), hfk]
        rfl
      rw [hgt, List.map_cons, hf kv (List.mem_cons_self _ _) e hfk, ihr]
      simp

theorem mem_comparisonEntries_cases (prodData latestData : List SummaryRow)
    (tracking : List TrackingRow) (e : DetEntry)
    (he : e ∈ comparisonEntries prodData latestData tracking) :
    (∃ kv ∈ buildPackages prodData,
      dictGet? (buildPackages latestData) kv.1 = none ∧
      e = mkFixedEntry (buildTrackingMaps tracking).1 (buildTrackingMaps tracking).2 kv) ∨
    (∃ kv ∈ buildPackages latestData,
      dictGet? (buildPackages prodData) kv.1 = none ∧ e = mkNewEntry kv) ∨
    (∃ kv ∈ buildPackages prodData, ∃ lr,
      dictGet? (buildPackages latestData) kv.1 = some lr ∧
      e = mkBothEntry (buildTrackingMaps tracking).1 (buildTrackingMaps tracking).2 kv lr) := by
  rw [comparisonEntries, List.mem_insertionSort] at he
  simp only [comparisonUnsorted] at he
  rcases List.mem_append.mp he with he3 | hun
  · rcases List.mem_append.mp he3 with hfix | hnew
    · obtain ⟨kv, hkv, hfe⟩ := List.mem_filterMap.mp hfix
      by_cases hs : (dictGet? (buildPackages latestData) kv.1).isSome = true
      · rw [if_pos hs] at hfe
        exact absurd hfe (by simp)
      · rw [if_neg hs] at hfe
        exact Or.inl ⟨kv, hkv, Option.not_isSome_iff_eq_none.mp hs,
          (Option.some.inj hfe).symm⟩
    · obtain ⟨kv, hkv, hfe⟩ := List.mem_filterMap.mp hnew
      by_cases hs : (dictGet? (buildPackages prodData) kv.1).isSome = true
      · rw [if_pos hs] at hfe
        exact absurd hfe (by simp)
      · rw [if_neg hs] at hfe
        exact Or.inr (Or.inl ⟨kv, hkv, Option.not_isSome_iff_eq_none.mp hs,
          (Option.some.inj hfe).symm⟩)
  · obtain ⟨kv, hkv, hfe⟩ := List.mem_filterMap.mp hun
    rw [Option.map_eq_some'] at hfe
    obtain ⟨lr, hgl, he4⟩ := hfe
    exact Or.inr (Or.inr ⟨kv, hkv, lr, hgl, he4.symm⟩)

theorem detailed_report_eq (prodData latestData : List SummaryRow)
    (tracking : List TrackingRow) (h1 : prodData ≠ []) (h2 : latestData ≠ []) :
    generate_detailed_comparison prodData latestData tracking =
      .report (comparisonEntries prodData latestData tracking) := by
  rw [generate_detailed_comparison,
    if_neg (fun hh => h1 (List.isEmpty_iff.mp hh)),
    if_neg (fun hh => h2 (List.isEmpty_iff.mp hh))]

/-! ## Claim theorems -/

/-- C10: `normalize_image_name` returns the prefix of the string before the
first occurrence of ':', '@' or '|' (the whole string when none occurs, for
any newline-free string, which covers every image reference); consequently
"registry.example:5000/team/app:1.2" normalizes to just "registry.example",
and the candidate-file matching predicate of `find_acr_image_version` reduces
to testing the prefix "registry.example__" of each file name. -/
theorem claim_C10 :
    (∀ image : List Char, '\n' ∉ image →
      normalize_image_name image =
        image.takeWhile (fun c => !(c = ':' || c = '|' || c = '@'))) ∧
    normalize_image_name "registry.example:5000/team/app:1.2".toList =
      "registry.example".toList ∧
    (∀ fname : List Char,
      acrFileMatches "registry.example:5000/team/app:1.2".toList fname =
        "registry.example__".toList.isPrefixOf fname) := by
  refine ⟨fun image h => subTagDigest_of_no_newline image h, by decide, fun fname => ?_⟩
  show (base_pattern "registry.example:5000/team/app:1.2".toList ++ "__".toList).isPrefixOf fname =
    "registry.example__".toList.isPrefixOf fname
  have hbp : base_pattern "registry.example:5000/team/app:1.2".toList ++ "__".toList =
      "registry.example__".toList := by decide
  rw [hbp]

/-- Witness for C10 at a concrete newline-free image reference. -/
theorem claim_C10_witness :
    normalize_image_name "myreg:5000/team/app:1.2".toList =
      "myreg:5000/team/app:1.2".toList.takeWhile (fun c => !(c = ':' || c = '|' || c = '@')) :=
  claim_C10.1 "myreg:5000/team/app:1.2".toList (by decide)

/-- C3 (amended): the extracted severity is the title-cased severity of the
LAST rating entry, among those up to and including the first score-bearing
rating (all ratings when none carries a score), that exposes a severity
("Unknown" when none does); the extracted CVSS score is the first non-empty
score among the rating entries ("Unknown" when none). -/
theorem claim_C3 (ratings : List Rating) :
    extractSevScore ratings = (specSeverityAmended ratings, specScoreStr ratings) := by
  rw [extractSevScore, extractSevScoreGo_spec]
  congr 1
  rw [specSeverityAmended]
  cases h : lastSevGo none (ratingsUpToFirstScore ratings) <;> simp [h]

/-- Counterexample to C3 as stated: with ratings
`[{severity: low}, {severity: high, score: 7.5}]` the first rating exposing a
severity carries "low", yet the code extracts "High" (the severity is
overwritten by every severity-bearing rating until the first score breaks the
loop), not the title-casing of the first severity. -/
theorem claim_C3_counterexample :
    claimFirstSeverity c3Ratings = some "low".toList ∧
    (extractSevScore c3Ratings).1 ≠ pyTitle "low".toList ∧
    (extractSevScore c3Ratings).1 = "High".toList := by decide

/-- C5 (amended): findings are de-duplicated by the key
`vuln.get("id", "Unknown")`, so every id-less finding shares the key
"Unknown" (with each other and with any finding whose literal id is
"Unknown").  In any document `pre ++ v :: post` where `v` lacks both id and
ratings and no finding of `pre` has the key "Unknown", `v` is still emitted —
one record per affected component — with "Unknown" placeholders for id,
severity and score; and once "Unknown" is among the processed keys, every
later id-less finding is dropped by the de-duplication, contributing no
records (filtering them out of the remaining document changes nothing). -/
theorem claim_C5 (imageName : List Char) (comps : List Component)
    (pre post : List Vuln) (v : Vuln)
    (hv : v.id = none) (hr : v.ratings = [])
    (hpre : ∀ u ∈ pre, u.id.getD "Unknown".toList ≠ "Unknown".toList) :
    genRows imageName comps (pre ++ v :: post) =
      genRows imageName comps pre ++
      (rowsForVuln imageName comps v "Unknown".toList ++
        genRowsGo imageName comps ("Unknown".toList :: processedAfter [] pre) post) ∧
    (rowsForVuln imageName comps v "Unknown".toList).length = v.affects.length ∧
    (∀ r ∈ rowsForVuln imageName comps v "Unknown".toList,
      r.vulnId = "Unknown".toList ∧ r.severity = "Unknown".toList ∧
      r.cvss = "Unknown".toList) ∧
    (∀ procd : List (List Char), "Unknown".toList ∈ procd → ∀ rest : List Vuln,
      genRowsGo imageName comps procd rest =
        genRowsGo imageName comps procd (rest.filter (fun u => u.id.isSome))) := by
  refine ⟨?_, ?_, ?_, fun procd hU rest => genRowsGo_drop_idless imageName comps rest procd hU⟩
  · rw [genRows, genRows, genRowsGo_append]
    have hvid : v.id.getD "Unknown".toList = "Unknown".toList := by rw [hv]; rfl
    have hnot : ¬("Unknown".toList ∈ processedAfter [] pre) := by
      intro hin
      rcases mem_processedAfter pre [] _ hin with h0 | ⟨u, hu, hk⟩
      · exact absurd h0 (List.not_mem_nil _)
      · exact hpre u hu hk
    have e1 : genRowsGo imageName comps (processedAfter [] pre) (v :: post) =
        rowsForVuln imageName comps v "Unknown".toList ++
        genRowsGo imageName comps ("Unknown".toList :: processedAfter [] pre) post := by
      simp only [genRowsGo, hvid, if_neg hnot]
    rw [e1]
  · simp [rowsForVuln]
  · intro r hmem
    rw [rowsForVuln] at hmem
    simp only [List.mem_map] at hmem
    obtain ⟨a, _, rfl⟩ := hmem
    refine ⟨rfl, ?_, ?_⟩ <;> simp [hr, extractSevScore, extractSevScoreGo]

/-- Counterexample to C5 as stated: a document with two distinct findings
both lacking an id yields only the first finding's record (package "aaa");
the second finding's record (package "bbb") is silently dropped, although the
claim demands one record per affected component for each of them. -/
theorem claim_C5_counterexample :
    (genRows "img".toList [] [c5VulnA, c5VulnB]).map RemRow.packageName = ["aaa".toList] ∧
    (genRows "img".toList [] [c5VulnA, c5VulnB]).length = 1 ∧
    c5VulnA.id = none ∧ c5VulnB.id = none ∧ c5VulnA ≠ c5VulnB := by decide

/-- C4 (amended): the extracted fixed-version string is the sorted,
comma-joined union of (a) the version literals of affect/version entries whose
status contains "fixed" or "patched" case-insensitively, and (b) the FIRST
match of the code's version regular expression `\d+\.[\d.]+` in each advisory
URL containing "fixed" case-insensitively; when neither source yields a
version the result is exactly "Check Manually". -/
theorem claim_C4 (v : Vuln) : extract_fixed_version v = specFixedVersionAmended v := by
  simp only [extract_fixed_version, specFixedVersionAmended]
  rw [affectsFoldl, advisoriesFoldl]
  by_cases hX : (v.affects.flatMap (fun a =>
      a.versions.filterMap (fun vi =>
        if containsSub "fixed".toList (pyLower vi.status) ||
            containsSub "patched".toList (pyLower vi.status) then some vi.version
        else none)) ++
    v.advisories.filterMap (fun adv =>
      if containsSub "fixed".toList (pyLower adv.url) then reSearchVersion adv.url
      else none)) = []
  · simp [hX]
  · simp [hX, List.isEmpty_iff]

/-- Counterexample to C4 as stated: for a finding whose only advisory URL is
"https://example.com/fixed/1.2-and-3.4", collecting every match of
`\d+(\.\d+)+` would give "1.2, 3.4", but the code (first match of
`\d+\.[\d\.]+` via `re.search`) yields "1.2". -/
theorem claim_C4_counterexample :
    extract_fixed_version c4Vuln = "1.2".toList ∧
    claimFixedVersion c4Vuln = "1.2, 3.4".toList ∧
    extract_fixed_version c4Vuln ≠ claimFixedVersion c4Vuln := by decide

/-- C6: the resolver rewrites the i-th tracking row exactly when the row's
image resolves to a candidate comparison, the row's finding id is in
baseline − candidate, and its Fixed_Version is "Check Manually"; the rewrite
touches only the Fixed_Version field (record update), all other rows and
fields are unchanged, row count is preserved, and an unresolved image (no
matching candidate) leaves its rows untouched — the function is total, so no
error is raised. -/
theorem claim_C6 (env : List Char → Option ImageComparison) (rows : List TrackingRow) :
    (update_fixed_versions env rows).length = rows.length ∧
    (∀ i : Fin rows.length, ∀ cmp : ImageComparison,
      env (rows.get i).image = some cmp →
      (update_fixed_versions env rows)[i.val]? =
        some (if (rows.get i).vulnId ∈ cmp.currentVulns ∧
                 (rows.get i).vulnId ∉ cmp.latestVulns ∧
                 (rows.get i).fixedVersion = "Check Manually".toList
          then { rows.get i with fixedVersion := cmp.acrImage }
          else rows.get i)) ∧
    (∀ i : Fin rows.length, env (rows.get i).image = none →
      (update_fixed_versions env rows)[i.val]? = some (rows.get i)) := by
  have hmap : ∀ i : Fin rows.length,
      (update_fixed_versions env rows)[i.val]? =
        some (processTrackingRow env (rows.get i)) := by
    intro i
    rw [update_fixed_versions, List.getElem?_map, List.getElem?_eq_getElem i.isLt]
    rfl
  refine ⟨by simp [update_fixed_versions], fun i cmp hcmp => ?_, fun i hnone => ?_⟩
  · rw [hmap i, processTrackingRow_some env (rows.get i) cmp hcmp]
  · rw [hmap i]
    unfold processTrackingRow
    rw [hnone]

/-- Witness for C6 at the Scenario-D instance: baseline ids {A,B,C,D} against
candidate ids {B,D}; the first row (CVE-A, "Check Manually") is rewritten to
the candidate reference. -/
theorem claim_C6_witness :
    (update_fixed_versions w6Env w6Rows)[(0 : Nat)]? =
      some { w6Row "CVE-A" "Check Manually" with fixedVersion := "reg/app:2.0".toList } := by
  have h := (claim_C6 w6Env w6Rows).2.1 ⟨0, by decide⟩ w6Cmp (by decide)
  rw [h]
  decide

/-- C1: for non-empty baseline and candidate summary collections, the
comparator reports, and each emitted entry's status equals the specification
table evaluated at its key: FIXED when only the baseline holds the key, NEW
when only the candidate does, and IMPROVED / WORSENED / UNCHANGED by
comparing candidate count c against baseline count b (c < b, c > b, c = b)
when both do. -/
theorem claim_C1 (prodData latestData : List SummaryRow) (tracking : List TrackingRow)
    (h1 : prodData ≠ []) (h2 : latestData ≠ []) :
    generate_detailed_comparison prodData latestData tracking =
      .report (comparisonEntries prodData latestData tracking) ∧
    ∀ e ∈ comparisonEntries prodData latestData tracking,
      specStatus (countAt (buildPackages prodData) (entryKey e))
        (countAt (buildPackages latestData) (entryKey e)) = some e.status := by
  refine ⟨detailed_report_eq prodData latestData tracking h1 h2, ?_⟩
  intro e he
  rcases mem_comparisonEntries_cases prodData latestData tracking e he with
    ⟨kv, hkv, hnone, he4⟩ | ⟨kv, hkv, hnone, he4⟩ | ⟨kv, hkv, lr, hsome, he4⟩
  · have hkey : entryKey e = kv.1 := by
      rw [he4]
      exact (buildPackages_key prodData kv hkv).symm
    have hgetp : dictGet? (buildPackages prodData) kv.1 = some kv.2 :=
      dictGet?_eq_some_of_mem _ _ _ (by simpa using hkv) (buildPackages_nodup prodData)
    have hst : e.status = "FIXED".toList := by rw [he4]; rfl
    rw [hkey, countAt, countAt, hgetp, hnone, hst]
    rfl
  · have hkey : entryKey e = kv.1 := by
      rw [he4]
      exact (buildPackages_key latestData kv hkv).symm
    have hgetl : dictGet? (buildPackages latestData) kv.1 = some kv.2 :=
      dictGet?_eq_some_of_mem _ _ _ (by simpa using hkv) (buildPackages_nodup latestData)
    have hst : e.status = "NEW".toList := by rw [he4]; rfl
    rw [hkey, countAt, countAt, hgetl, hnone, hst]
    rfl
  · have hkey : entryKey e = kv.1 := by
      rw [he4]
      exact (buildPackages_key prodData kv hkv).symm
    have hgetp : dictGet? (buildPackages prodData) kv.1 = some kv.2 :=
      dictGet?_eq_some_of_mem _ _ _ (by simpa using hkv) (buildPackages_nodup prodData)
    rw [hkey, countAt, countAt, hgetp, hsome, he4]
    show specStatus (some kv.2.count) (some lr.count) =
      some (if kv.2.count ≠ lr.count then
          (if lr.count < kv.2.count then "IMPROVED".toList else "WORSENED".toList)
        else "UNCHANGED".toList)
    rcases Nat.lt_trichotomy lr.count kv.2.count with hlt | heqc | hgt
    · rw [specStatus, if_pos hlt, if_pos (Nat.ne_of_gt hlt), if_pos hlt]
    · rw [heqc, specStatus]
      simp
    · rw [specStatus, if_neg (Nat.lt_asymm hgt), if_pos hgt,
        if_pos (Nat.ne_of_lt hgt), if_neg (Nat.lt_asymm hgt)]

/-- C2: for non-empty inputs the comparator reports; the multiset of emitted
keys is duplicate-free, its underlying set is exactly the union of the
baseline dict keys and the candidate dict keys (which are in turn exactly the
`Package_Name|Current_Version` keys of the input rows), and every emitted
entry carries one of the five statuses — so no key is classified twice and no
key is omitted. -/
theorem claim_C2 (prodData latestData : List SummaryRow) (tracking : List TrackingRow)
    (h1 : prodData ≠ []) (h2 : latestData ≠ []) :
    generate_detailed_comparison prodData latestData tracking =
      .report (comparisonEntries prodData latestData tracking) ∧
    ((comparisonEntries prodData latestData tracking).map entryKey).Nodup ∧
    (∀ k : List Char,
      k ∈ (comparisonEntries prodData latestData tracking).map entryKey ↔
      (k ∈ (buildPackages prodData).map Prod.fst ∨
       k ∈ (buildPackages latestData).map Prod.fst)) ∧
    (∀ k : List Char, k ∈ (buildPackages prodData).map Prod.fst ↔
      ∃ r ∈ prodData, create_package_key r = k) ∧
    (∀ k : List Char, k ∈ (buildPackages latestData).map Prod.fst ↔
      ∃ r ∈ latestData, create_package_key r = k) ∧
    (∀ e ∈ comparisonEntries prodData latestData tracking,
      e.status = "FIXED".toList ∨ e.status = "NEW".toList ∨
      e.status = "IMPROVED".toList ∨ e.status = "WORSENED".toList ∨
      e.status = "UNCHANGED".toList) := by
  have hperm : (comparisonEntries prodData latestData tracking).Perm
      (comparisonUnsorted prodData latestData tracking) :=
    List.perm_insertionSort _ _
  have hkperm := hperm.map entryKey
  have hkeys : (comparisonUnsorted prodData latestData tracking).map entryKey =
      (((buildPackages prodData).map Prod.fst).filter
          (fun k => !(dictGet? (buildPackages latestData) k).isSome) ++
        ((buildPackages latestData).map Prod.fst).filter
          (fun k => !(dictGet? (buildPackages prodData) k).isSome)) ++
      ((buildPackages prodData).map Prod.fst).filter
        (fun k => (dictGet? (buildPackages latestData) k).isSome) := by
    simp only [comparisonUnsorted]
    rw [List.map_append, List.map_append]
    rw [map_entryKey_filterMap _ _
        (fun k => !(dictGet? (buildPackages latestData) k).isSome) ?hf1 ?hg1,
      map_entryKey_filterMap _ _
        (fun k => !(dictGet? (buildPackages prodData) k).isSome) ?hf2 ?hg2,
      map_entryKey_filterMap _ _
        (fun k => (dictGet? (buildPackages latestData) k).isSome) ?hf3 ?hg3]
    case hf1 =>
      intro kv hkv e hfe
      by_cases hs : (dictGet? (buildPackages latestData) kv.1).isSome = true
      · rw [if_pos hs] at hfe
        exact absurd hfe (by simp)
      · rw [if_neg hs] at hfe
        rw [← Option.some.inj hfe]
        exact (buildPackages_key prodData kv hkv).symm
    case hg1 =>
      intro kv hkv
      by_cases hs : (dictGet? (buildPackages latestData) kv.1).isSome = true <;> simp [hs]
    case hf2 =>
      intro kv hkv e hfe
      by_cases hs : (dictGet? (buildPackages prodData) kv.1).isSome = true
      · rw [if_pos hs] at hfe
        exact absurd hfe (by simp)
      · rw [if_neg hs] at hfe
        rw [← Option.some.inj hfe]
        exact (buildPackages_key latestData kv hkv).symm
    case hg2 =>
      intro kv hkv
      by_cases hs : (dictGet? (buildPackages prodData) kv.1).isSome = true <;> simp [hs]
    case hf3 =>
      intro kv hkv e hfe
      rw [Option.map_eq_some'] at hfe
      obtain ⟨lr, _, he4⟩ := hfe
      rw [← he4]
      exact (buildPackages_key prodData kv hkv).symm
    case hg3 =>
      intro kv hkv
      cases hcase : dictGet? (buildPackages latestData) kv.1 <;> simp [hcase]
  have hPn := buildPackages_nodup prodData
  have hLn := buildPackages_nodup latestData
  have hsomeFalse : ∀ (d : List (List Char × SummaryRow)) (k : List Char),
      ¬k ∈ d.map Prod.fst → (dictGet? d k).isSome = false := by
    intro d k hk
    cases hcase : (dictGet? d k).isSome
    · rfl
    · exact absurd ((dictGet?_isSome_iff d k).mp hcase) hk
  refine ⟨detailed_report_eq prodData latestData tracking h1 h2, ?_, ?_,
    fun k => mem_keys_buildPackages prodData k,
    fun k => mem_keys_buildPackages latestData k, ?_⟩
  · rw [hkperm.nodup_iff, hkeys, List.nodup_append, List.nodup_append]
    refine ⟨⟨hPn.filter _, hLn.filter _, ?_⟩, hPn.filter _, ?_⟩
    · intro a haX haY
      have hX := List.mem_filter.mp haX
      have hY := List.mem_filter.mp haY
      have hsome := (dictGet?_isSome_iff (buildPackages prodData) a).mpr hX.1
      rw [Bool.not_eq_true'] at hY
      rw [hY.2] at hsome
      exact Bool.noConfusion hsome
    · intro a ha haZ
      have hZ := List.mem_filter.mp haZ
      rcases List.mem_append.mp ha with haX | haY
      · have hX := List.mem_filter.mp haX
        rw [Bool.not_eq_true'] at hX
        rw [hX.2] at hZ
        exact Bool.noConfusion hZ.2
      · have hY := List.mem_filter.mp haY
        have hsome := (dictGet?_isSome_iff (buildPackages prodData) a).mpr hZ.1
        rw [Bool.not_eq_true'] at hY
        rw [hY.2] at hsome
        exact Bool.noConfusion hsome
  · intro k
    rw [hkperm.mem_iff, hkeys]
    constructor
    · intro hk
      rcases List.mem_append.mp hk with hk2 | hk3
      · rcases List.mem_append.mp hk2 with hk4 | hk5
        · exact Or.inl (List.mem_filter.mp hk4).1
        · exact Or.inr (List.mem_filter.mp hk5).1
      · exact Or.inl (List.mem_filter.mp hk3).1
    · intro hk
      by_cases hP : k ∈ (buildPackages prodData).map Prod.fst
      · by_cases hL : k ∈ (buildPackages latestData).map Prod.fst
        · refine List.mem_append.mpr (Or.inr ?_)
          exact List.mem_filter.mpr ⟨hP, (dictGet?_isSome_iff _ _).mpr hL⟩
        · refine List.mem_append.mpr (Or.inl (List.mem_append.mpr (Or.inl ?_)))
          exact List.mem_filter.mpr ⟨hP, by simp [hsomeFalse _ _ hL]⟩
      · rcases hk with hk | hL2
        · exact absurd hk hP
        · refine List.mem_append.mpr (Or.inl (List.mem_append.mpr (Or.inr ?_)))
          exact List.mem_filter.mpr ⟨hL2, by simp [hsomeFalse _ _ hP]⟩
  · intro e he
    rcases mem_comparisonEntries_cases prodData latestData tracking e he with
      ⟨kv, _, _, he4⟩ | ⟨kv, _, _, he4⟩ | ⟨kv, _, lr, _, he4⟩
    · exact Or.inl (by rw [he4]; rfl)
    · exact Or.inr (Or.inl (by rw [he4]; rfl))
    · rw [he4]
      have hst : (mkBothEntry (buildTrackingMaps tracking).1 (buildTrackingMaps tracking).2
          kv lr).status =
          (if kv.2.count ≠ lr.count then
            (if lr.count < kv.2.count then "IMPROVED".toList else "WORSENED".toList)
          else "UNCHANGED".toList) := rfl
      rw [hst]
      by_cases hne : kv.2.count ≠ lr.count
      · by_cases hlt : lr.count < kv.2.count
        · rw [if_pos hne, if_pos hlt]
          exact Or.inr (Or.inr (Or.inl rfl))
        · rw [if_pos hne, if_neg hlt]
          exact Or.inr (Or.inr (Or.inr (Or.inl rfl)))
      · rw [if_neg hne]
        exact Or.inr (Or.inr (Or.inr (Or.inr rfl)))

/-- Witness for C2 at the Scenario-C instance. -/
theorem claim_C2_witness :
    generate_detailed_comparison [w1ProdRow] [w1LatestRow] [] =
      .report (comparisonEntries [w1ProdRow] [w1LatestRow] []) ∧
    ((comparisonEntries [w1ProdRow] [w1LatestRow] []).map entryKey).Nodup ∧
    (∀ k : List Char,
      k ∈ (comparisonEntries [w1ProdRow] [w1LatestRow] []).map entryKey ↔
      (k ∈ (buildPackages [w1ProdRow]).map Prod.fst ∨
       k ∈ (buildPackages [w1LatestRow]).map Prod.fst)) ∧
    (∀ k : List Char, k ∈ (buildPackages [w1ProdRow]).map Prod.fst ↔
      ∃ r ∈ [w1ProdRow], create_package_key r = k) ∧
    (∀ k : List Char, k ∈ (buildPackages [w1LatestRow]).map Prod.fst ↔
      ∃ r ∈ [w1LatestRow], create_package_key r = k) ∧
    (∀ e ∈ comparisonEntries [w1ProdRow] [w1LatestRow] [],
      e.status = "FIXED".toList ∨ e.status = "NEW".toList ∨
      e.status = "IMPROVED".toList ∨ e.status = "WORSENED".toList ∨
      e.status = "UNCHANGED".toList) :=
  claim_C2 [w1ProdRow] [w1LatestRow] [] (by decide) (by decide)

/-- C9: with an empty baseline or candidate collection the detailed
comparator returns a skip outcome whose message names the missing side
(production, or latest when the baseline is present), never a report — and
the summary comparator `compare_vulnerabilities` likewise returns a skip,
never an analysis, for every combination of file-existence flags; both
functions are total, so no exception is raised. -/
theorem claim_C9 (prodData latestData : List SummaryRow) (tracking : List TrackingRow)
    (h : prodData = [] ∨ latestData = []) :
    (∃ msg, generate_detailed_comparison prodData latestData tracking = .skip msg) ∧
    (prodData = [] →
      generate_detailed_comparison prodData latestData tracking =
        .skip "No production data found in reports/production/vulnerabilities_summary.csv".toList ∧
      containsSub "production".toList
        "No production data found in reports/production/vulnerabilities_summary.csv".toList
        = true) ∧
    (prodData ≠ [] → latestData = [] →
      generate_detailed_comparison prodData latestData tracking =
        .skip "No latest data found in reports/latest/vulnerabilities_summary.csv".toList ∧
      containsSub "latest".toList
        "No latest data found in reports/latest/vulnerabilities_summary.csv".toList = true) ∧
    (∀ entries, generate_detailed_comparison prodData latestData tracking ≠
      .report entries) ∧
    (∀ prodExists latestExists : Bool,
      (∃ msg, compare_vulnerabilities prodExists latestExists prodData latestData =
        .skip msg) ∧
      ∀ n m, compare_vulnerabilities prodExists latestExists prodData latestData ≠
        .analysis n m) := by
  have hskip : ∃ msg, generate_detailed_comparison prodData latestData tracking =
      .skip msg := by
    by_cases hp : prodData = []
    · exact ⟨_, by rw [generate_detailed_comparison, if_pos (by simp [hp])]⟩
    · have hl : latestData = [] := h.resolve_left hp
      refine ⟨"No latest data found in reports/latest/vulnerabilities_summary.csv".toList, ?_⟩
      rw [generate_detailed_comparison, if_neg (fun hh => hp (List.isEmpty_iff.mp hh)),
        if_pos (by simp [hl])]
  refine ⟨hskip, ?_, ?_, ?_, ?_⟩
  · intro hp
    exact ⟨by rw [generate_detailed_comparison, if_pos (by simp [hp])], by decide⟩
  · intro hp hl
    refine ⟨?_, by decide⟩
    rw [generate_detailed_comparison, if_neg (fun hh => hp (List.isEmpty_iff.mp hh)),
      if_pos (by simp [hl])]
  · intro entries hcon
    obtain ⟨msg, hm⟩ := hskip
    rw [hm] at hcon
    exact DetOutcome.noConfusion hcon
  · intro prodExists latestExists
    have hor : (prodData.isEmpty || latestData.isEmpty) = true := by
      rcases h with h | h <;> simp [h]
    constructor
    · cases prodExists with
      | false => exact ⟨_, rfl⟩
      | true =>
        cases latestExists with
        | false => exact ⟨_, rfl⟩
        | true =>
          refine ⟨"❌ No vulnerability data to compare".toList, ?_⟩
          rw [compare_vulnerabilities]
          rw [if_neg (by simp), if_neg (by simp), if_pos hor]
    · intro n m hcon
      cases prodExists with
      | false => exact CVOutcome.noConfusion hcon
      | true =>
        cases latestExists with
        | false => exact CVOutcome.noConfusion hcon
        | true =>
          rw [compare_vulnerabilities, if_neg (by simp), if_neg (by simp),
            if_pos hor] at hcon
          exact CVOutcome.noConfusion hcon

/-- Witness for C9 with an empty baseline. -/
theorem claim_C9_witness :
    generate_detailed_comparison [] [w1LatestRow] [] =
      .skip "No production data found in reports/production/vulnerabilities_summary.csv".toList ∧
    containsSub "production".toList
      "No production data found in reports/production/vulnerabilities_summary.csv".toList
      = true :=
  (claim_C9 [] [w1LatestRow] [] (Or.inl rfl)).2.1 rfl

/-- Witness for C1 at the Scenario-C instance (baseline count 5, candidate
count 2 at the same key). -/
theorem claim_C1_witness :
    generate_detailed_comparison [w1ProdRow] [w1LatestRow] [] =
      .report (comparisonEntries [w1ProdRow] [w1LatestRow] []) ∧
    ∀ e ∈ comparisonEntries [w1ProdRow] [w1LatestRow] [],
      specStatus (countAt (buildPackages [w1ProdRow]) (entryKey e))
        (countAt (buildPackages [w1LatestRow]) (entryKey e)) = some e.status :=
  claim_C1 [w1ProdRow] [w1LatestRow] [] (by decide) (by decide)

/-- C7: when every row's sort key computes (every score string that passes
the digits test has at most one dot — true of every score produced from a
JSON number), the output is the stable sort of the records by severity rank
ascending (Critical 0 < High 1 < Medium 2 < Low 3 < Unknown/other 4) then
numeric score descending; non-numeric score strings order as value 0 while
the records themselves (hence their displayed score strings) are only
permuted, never altered. -/
theorem claim_C7 (rows : List RemRow) (h : ∀ r ∈ rows, (codeSortKey r).isSome = true) :
    sortRemediation rows = some (rows.insertionSort (fun a b => rowLe a b = true)) ∧
    (rows.insertionSort (fun a b => rowLe a b = true)).Perm rows ∧
    List.Pairwise (fun a b => specRowLe a b = true)
      (rows.insertionSort (fun a b => rowLe a b = true)) ∧
    (∀ a b : RemRow, specKey a = specKey b → [a, b].Sublist rows →
      [a, b].Sublist (rows.insertionSort (fun a b => rowLe a b = true))) := by
  have hall : rows.all (fun r => (codeSortKey r).isSome) = true := List.all_eq_true.mpr h
  have heq : ∀ r ∈ rows, (codeSortKey r).getD (0, (0, 0)) = specKey r :=
    fun r hr => codeSortKey_getD_spec r (h r hr)
  letI : IsTrans RemRow (fun a b => rowLe a b = true) := ⟨fun a b c => rowLe_trans a b c⟩
  letI : IsTotal RemRow (fun a b => rowLe a b = true) :=
    ⟨fun a b => by
      rcases Bool.or_eq_true _ _ |>.mp (rowLe_total a b) with hx | hx
      · exact Or.inl hx
      · exact Or.inr hx⟩
  refine ⟨by rw [sortRemediation, if_pos hall], List.perm_insertionSort _ _, ?_, ?_⟩
  · refine List.Pairwise.imp_of_mem ?_ (List.sorted_insertionSort _ rows)
    intro a b ha hb hr
    have ha2 : a ∈ rows := (List.mem_insertionSort _).mp ha
    have hb2 : b ∈ rows := (List.mem_insertionSort _).mp hb
    rw [specRowLe, ← heq a ha2, ← heq b hb2]
    exact hr
  · intro a b hk hsub
    have ha : a ∈ rows := hsub.subset (by simp)
    have hb : b ∈ rows := hsub.subset (by simp)
    have hab : rowLe a b = true := by
      rw [rowLe, heq a ha, heq b hb, hk]
      exact keyLe_refl _
    exact List.pair_sublist_insertionSort hab hsub

/-- Witness for C7 at four concrete rows (one with score "Unknown"). -/
theorem claim_C7_witness :
    sortRemediation w7Rows = some (w7Rows.insertionSort (fun a b => rowLe a b = true)) ∧
    (w7Rows.insertionSort (fun a b => rowLe a b = true)).Perm w7Rows ∧
    List.Pairwise (fun a b => specRowLe a b = true)
      (w7Rows.insertionSort (fun a b => rowLe a b = true)) ∧
    (∀ a b : RemRow, specKey a = specKey b → [a, b].Sublist w7Rows →
      [a, b].Sublist (w7Rows.insertionSort (fun a b => rowLe a b = true))) :=
  claim_C7 w7Rows (by decide)

/-- C8: a package group's Priority is "High" iff its highest severity (the
first severity string of minimal rank, ranks Critical 0 < High 1 < Medium 2 <
Low 3 < anything else 4) is Critical or High; "Medium" iff it is Medium;
"Low" exactly otherwise; and it is never "Low" when the group contains any
Critical or High record. -/
theorem claim_C8 (rows : List RemRow) (g : List Char × List RemRow)
    (hg : g ∈ packageGroups rows) :
    (groupPriority g.2 = "High".toList ↔
      (groupHighestSeverity g.2 = "Critical".toList ∨
       groupHighestSeverity g.2 = "High".toList)) ∧
    (groupPriority g.2 = "Medium".toList ↔ groupHighestSeverity g.2 = "Medium".toList) ∧
    (groupPriority g.2 = "Low".toList ↔
      ¬(groupHighestSeverity g.2 = "Critical".toList ∨
        groupHighestSeverity g.2 = "High".toList ∨
        groupHighestSeverity g.2 = "Medium".toList)) ∧
    (∀ r ∈ g.2, (r.severity = "Critical".toList ∨ r.severity = "High".toList) →
      groupPriority g.2 ≠ "Low".toList) := by
  have hmin : ∀ r ∈ g.2,
      sevPriorityRank (groupHighestSeverity g.2) ≤ sevPriorityRank r.severity := by
    intro r hr
    exact highestSeverity_le_mem _ _ (List.mem_map_of_mem RemRow.severity hr)
  have hfourth : ∀ r ∈ g.2,
      (r.severity = "Critical".toList ∨ r.severity = "High".toList) →
      (groupHighestSeverity g.2 = "Critical".toList ∨
       groupHighestSeverity g.2 = "High".toList) := by
    intro r hr hsev
    refine sevPriorityRank_le_one _ (le_trans (hmin r hr) ?_)
    rcases hsev with h | h <;> rw [h] <;> decide
  have hP : groupPriority g.2 = summaryPriority (groupHighestSeverity g.2) := rfl
  rw [hP]
  unfold summaryPriority
  split_ifs with h1 h2
  · refine ⟨⟨fun _ => h1, fun _ => rfl⟩,
      ⟨fun h => absurd h (by decide), fun hM => ?_⟩,
      ⟨fun h => absurd h (by decide),
       fun hn => absurd (h1.elim Or.inl (fun b => Or.inr (Or.inl b))) hn⟩,
      fun r hr hsev => by decide⟩
    rcases h1 with h | h
    · exact absurd (h.symm.trans hM) (by decide)
    · exact absurd (h.symm.trans hM) (by decide)
  · exact ⟨⟨fun h => absurd h (by decide), fun hc => absurd hc h1⟩,
      ⟨fun _ => h2, fun _ => rfl⟩,
      ⟨fun h => absurd h (by decide), fun hn => absurd (Or.inr (Or.inr h2)) hn⟩,
      fun r hr hsev => absurd (hfourth r hr hsev) h1⟩
  · exact ⟨⟨fun h => absurd h (by decide), fun hc => absurd hc h1⟩,
      ⟨fun h => absurd h (by decide), fun hM => absurd hM h2⟩,
      ⟨fun _ => fun hor => hor.elim (fun a => h1 (Or.inl a))
        (fun b => b.elim (fun c => h1 (Or.inr c)) (fun d => h2 d)), fun _ => rfl⟩,
      fun r hr hsev => absurd (hfourth r hr hsev) h1⟩

/-- Witness for C8 at a one-record Critical group. -/
theorem claim_C8_witness :
    (groupPriority [w8Row] = "High".toList ↔
      (groupHighestSeverity [w8Row] = "Critical".toList ∨
       groupHighestSeverity [w8Row] = "High".toList)) ∧
    (groupPriority [w8Row] = "Medium".toList ↔
      groupHighestSeverity [w8Row] = "Medium".toList) ∧
    (groupPriority [w8Row] = "Low".toList ↔
      ¬(groupHighestSeverity [w8Row] = "Critical".toList ∨
        groupHighestSeverity [w8Row] = "High".toList ∨
        groupHighestSeverity [w8Row] = "Medium".toList)) ∧
    (∀ r ∈ [w8Row], (r.severity = "Critical".toList ∨ r.severity = "High".toList) →
      groupPriority [w8Row] ≠ "Low".toList) :=
  claim_C8 [w8Row] ("p@1".toList, [w8Row]) (by decide)

/-- Witness for C5 at a concrete document: an id-bearing finding, then two
id-less findings. -/
theorem claim_C5_witness :
    genRows "img".toList [] ([c5PreVuln] ++ c5VulnA :: [c5VulnB]) =
      genRows "img".toList [] [c5PreVuln] ++
      (rowsForVuln "img".toList [] c5VulnA "Unknown".toList ++
        genRowsGo "img".toList []
          ("Unknown".toList :: processedAfter [] [c5PreVuln]) [c5VulnB]) ∧
    (rowsForVuln "img".toList [] c5VulnA "Unknown".toList).length =
      c5VulnA.affects.length ∧
    (∀ r ∈ rowsForVuln "img".toList [] c5VulnA "Unknown".toList,
      r.vulnId = "Unknown".toList ∧ r.severity = "Unknown".toList ∧
      r.cvss = "Unknown".toList) ∧
    (∀ procd : List (List Char), "Unknown".toList ∈ procd → ∀ rest : List Vuln,
      genRowsGo "img".toList [] procd rest =
        genRowsGo "img".toList [] procd (rest.filter (fun u => u.id.isSome))) :=
  claim_C5 "img".toList [] [c5PreVuln] [c5VulnB] c5VulnA rfl rfl (by decide)

end AzVuln
